import Mathlib

/-!
Verification development for the Vulkan rendering core of the jay compositor
(src/gfx_apis/vulkan.rs and src/gfx_apis/vulkan/renderer.rs).

The renderer is shallowly embedded: the mutable `VulkanRenderer` (Rc cells,
stacks, hash map of pending frames) becomes an explicit `Renderer` state
record threaded through every operation.  Fallible external calls (Vulkan
entry points and dma-buf ioctls) are resolved by an explicit `Env` of
success flags, and every externally visible call is appended to a ghost
`trace` so that ioctl flags and blocking behaviour can be stated.  Rust
`Result` becomes `RRes`, with a third constructor `aborted` for panics
(`expect`, `unwrap`, `unreachable!`, failed assertions).

Machine integers: all ids, sizes and counters are `Nat`; the only place the
source relies on bounded arithmetic on the frame path is the checked shm
size multiplication, modelled with an explicit `2 ^ 64` bound.
-/

namespace Jay

/-- Subset of the `VulkanError` enum (src/gfx_apis/vulkan.rs) reachable from
the renderer paths modelled here. -/
inductive VulkanError
  | AllocateCommandBuffer
  | BeginCommandBuffer
  | EndCommandBuffer
  | Submit
  | CreateSemaphore
  | CreateFence
  | CreateBuffer
  | CreateImage
  | FlushMemory
  | MapMemory
  | IoctlExportSyncFile
  | ImportSyncFile
  | IoctlImportSyncFile
  | ExportSyncFile
  | ShmOverflow
  | InvalidStride
  | InvalidBufferSize
  | InvalidShmParameters (x y width height stride : Int)
  deriving DecidableEq, Repr

/-- Static format descriptor (crate::format::Format): DRM fourcc, the Vulkan
format it maps to, and bytes per pixel. -/
structure Format where
  drm : Nat
  vk_format : Nat
  bpp : Nat
  deriving DecidableEq, Repr

/-- One plane of a dma-buf; only the fd identity matters for the sync-file
ioctls. -/
structure DmaBufPlane where
  fd : Nat
  deriving DecidableEq, Repr

/-- External dma-buf referenced by an imported image. -/
structure DmaBuf where
  planes : List DmaBufPlane
  deriving DecidableEq, Repr

/-- Host-backed shm image payload: stride, total byte size, and the pending
upload (`to_flush`). -/
structure ShmImage where
  stride : Nat
  size : Nat
  to_flush : Option (List Nat)
  deriving DecidableEq, Repr

/-- The two image kinds of `VulkanImageMemory` (vulkan/image.rs). -/
inductive VulkanImageMemory
  | dmaBuf (buf : DmaBuf)
  | internal (shm : ShmImage)
  deriving DecidableEq, Repr

/-- A Vulkan image: dimensions, stride, format, the mutable `is_undefined`
layout flag, the backing memory kind, and the device it belongs to (the
`renderer` back reference used by `assert_device`). -/
structure VulkanImage where
  width : Nat
  height : Nat
  stride : Nat
  format : Format
  is_undefined : Bool
  ty : VulkanImageMemory
  deviceH : Nat
  deriving DecidableEq, Repr

instance : Inhabited VulkanImage :=
  ⟨{ width := 0, height := 0, stride := 0, format := ⟨0, 0, 1⟩,
     is_undefined := true, ty := .internal ⟨0, 0, none⟩, deviceH := 0 }⟩

/-- A `dyn GfxTexture` trait object: either a Vulkan image of some device
(identified by its id in the image store) or an image of a foreign backend. -/
inductive GfxTexture
  | vulkan (id : Nat)
  | foreign
  deriving DecidableEq, Repr

/-- Frame operations (`GfxApiOpt`); the geometry and color payloads of
`FillRect` and `CopyTexture` only feed push constants and are not modelled. -/
inductive GfxApiOpt
  | sync
  | fillRect
  | copyTexture (tex : GfxTexture)
  deriving DecidableEq, Repr

/-- Clear colors are opaque to the frame bookkeeping. -/
abbrev Color := Nat

/-- Image layouts appearing in the modelled barriers. -/
inductive Layout
  | undefined
  | general
  | colorAttachmentOptimal
  | shaderReadOnlyOptimal
  | transferDstOptimal
  | transferSrcOptimal
  deriving DecidableEq, Repr

/-- An entry of `memory.image_barriers`: image id, layouts, and whether the
barrier transfers queue-family ownership from/to `QUEUE_FAMILY_FOREIGN_EXT`. -/
structure ImageBarrier where
  image : Nat
  old_layout : Layout
  new_layout : Layout
  src_foreign : Bool
  dst_foreign : Bool
  deriving DecidableEq, Repr

/-- Host-visible staging buffer with the three policy flags of
`create_staging_buffer(size, upload, download, coherent_or_flushed)`. -/
structure VulkanStagingBuffer where
  id : Nat
  size : Nat
  upload : Bool
  download : Bool
  coherent : Bool
  deriving DecidableEq, Repr

/-- One `SemaphoreSubmitInfo` of the wait list; the source always uses stage
mask `TOP_OF_PIPE`. -/
structure SemInfo where
  semaphore : Nat
  stage_top_of_pipe : Bool
  deriving DecidableEq, Repr

/-- Ghost trace of externally visible calls: dma-buf sync-file ioctls with
their flags and outcome, copies, submissions, draws and `device_wait_idle`. -/
inductive Event
  | exportSyncFile (fd flag : Nat) (ok : Bool)
  | importSyncFile (fd flag : Nat) (ok : Bool)
  | copyBufferToImage (image rowLength : Nat)
  | copyImageToBuffer (image : Nat)
  | beginRendering (clearUsed : Bool)
  | draw
  | queueSubmit
  | deviceWaitIdle
  deriving DecidableEq, Repr

/-- The per-frame scratch struct `Memory` of the renderer. -/
structure Memory where
  sample : List Nat
  flush : List Nat
  flush_staging : List (Nat × VulkanStagingBuffer)
  textures : List Nat
  image_barriers : List ImageBarrier
  shm_barriers : List Nat
  wait_semaphores : List Nat
  wait_semaphore_infos : List SemInfo
  release_fence : Option Nat
  release_syncfile : Option Nat
  deriving DecidableEq, Repr

/-- A pending frame.  The `syncfile` field records the release sync-file
moved into the spawned `await_release` future (in the source it is a capture
of the waiter task, not a struct field); the `waiter` handle itself carries
no state and is not modelled. -/
structure PendingFrame where
  point : Nat
  cmd : Option Nat
  textures : List Nat
  staging : List (Nat × VulkanStagingBuffer)
  wait_semaphores : List Nat
  release_fence : Option Nat
  syncfile : Option Nat
  deriving DecidableEq, Repr

/-- The renderer state: the image store (all live `VulkanImage` objects,
keyed by id), the two recycling stacks (head is the top), the scratch
`Memory`, the pending-frame map (association list, newest first), the
monotone `last_point`, a fresh-id source for newly allocated objects, and
the ghost event trace. -/
structure Renderer where
  deviceH : Nat
  images : List (Nat × VulkanImage)
  command_buffers : List Nat
  wait_semaphores : List Nat
  total_buffers : Nat
  memory : Memory
  pending_frames : List (Nat × PendingFrame)
  last_point : Nat
  fresh : Nat
  trace : List Event
  deriving DecidableEq, Repr

/-- Result of a renderer operation: `ok`, a returned `Err`, or a panic
(`expect` / `unwrap` / `unreachable!`). -/
inductive RRes (α : Type)
  | ok (val : α)
  | err (e : VulkanError)
  | aborted
  deriving DecidableEq, Repr

/-- Resolution of external nondeterminism: which fallible Vulkan calls and
ioctls succeed.  Indexed flags are consulted with a per-loop counter. -/
structure Env where
  allocBufOk : Bool
  beginOk : Bool
  createStagingOk : Nat → Bool
  stagingUploadOk : Nat → Bool
  endOk : Bool
  exportSyncOk : Nat → Bool
  createSemOk : Nat → Bool
  importSemOk : Nat → Bool
  createFenceOk : Bool
  submitOk : Bool
  exportFenceOk : Bool
  importRelOk : Bool
  downloadOk : Bool
  createShmImageOk : Bool

/-- Environment in which every external call succeeds. -/
def okEnv : Env where
  allocBufOk := true
  beginOk := true
  createStagingOk := fun _ => true
  stagingUploadOk := fun _ => true
  endOk := true
  exportSyncOk := fun _ => true
  createSemOk := fun _ => true
  importSemOk := fun _ => true
  createFenceOk := true
  submitOk := true
  exportFenceOk := true
  importRelOk := true
  downloadOk := true
  createShmImageOk := true

/-- Sequencing of fallible state-passing steps (the `?` operator). -/
def rbind {α β : Type} (x : RRes α × Renderer)
    (f : α → Renderer → RRes β × Renderer) : RRes β × Renderer :=
  match x with
  | (.ok a, s) => f a s
  | (.err e, s) => (.err e, s)
  | (.aborted, s) => (.aborted, s)

/-- Flag `DMA_BUF_SYNC_READ` of the dma-buf sync-file ioctls (spec section 6;
video/dmabuf.rs is not under src). -/
def DMA_BUF_SYNC_READ : Nat := 1

/-- Flag `DMA_BUF_SYNC_WRITE` of the dma-buf sync-file ioctls (spec section 6;
video/dmabuf.rs is not under src). -/
def DMA_BUF_SYNC_WRITE : Nat := 2

/-- Image store lookup. -/
def lookupImage (s : Renderer) (id : Nat) : Option VulkanImage :=
  s.images.lookup id

/-- Image store lookup with a default, for contexts where the source holds a
direct reference and absence is unrepresentable. -/
def getImage (s : Renderer) (id : Nat) : VulkanImage :=
  (lookupImage s id).getD default

/-- Pointwise update of the image store at one id. -/
def updateImage (s : Renderer) (id : Nat) (f : VulkanImage → VulkanImage) :
    Renderer :=
  { s with images := s.images.map fun p => if p.1 = id then (p.1, f p.2) else p }

/-- The `dyn GfxTexture::into_vk` downcast (renderer.rs): a non-Vulkan
texture, or a Vulkan image of another device (`assert_device`), is a
programmer error and panics; there is no error return. -/
def into_vk (s : Renderer) (t : GfxTexture) : RRes (Nat × VulkanImage) :=
  match t with
  | .foreign => .aborted
  | .vulkan id =>
    match lookupImage s id with
    | none => .aborted
    | some img => if img.deviceH = s.deviceH then .ok (id, img) else .aborted

/-- The `dyn GfxTexture::as_vk` downcast; same checks as `into_vk`. -/
def as_vk (s : Renderer) (t : GfxTexture) : RRes (Nat × VulkanImage) :=
  into_vk s t

/-- Modelled from the spec: the `GfxFramebuffer` trait-object downcast into
the Vulkan core (gfx_api is not under src); spec section 9 says every such
object is assumed to be a Vulkan image of this device and foreign images
abort, exactly like the texture downcast. -/
def gfx_fb_into_vk (s : Renderer) (t : GfxTexture) : RRes (Nat × VulkanImage) :=
  into_vk s t

/-- True when the downcast of `t` panics: a foreign texture, a dangling id,
or an image of another device. -/
def badTexture (s : Renderer) (t : GfxTexture) : Bool :=
  match t with
  | .foreign => true
  | .vulkan id =>
    match lookupImage s id with
    | none => true
    | some img => img.deviceH ≠ s.deviceH

/-- The `block` helper: `device_wait_idle`, logged as a slow path. -/
def block (s : Renderer) : Renderer :=
  { s with trace := s.trace ++ [.deviceWaitIdle] }

/-- Pop a command buffer from the free-list stack or allocate a new one;
`total_buffers` is incremented before the fallible pool allocation. -/
def allocate_command_buffer (env : Env) (s : Renderer) :
    RRes Nat × Renderer :=
  match s.command_buffers with
  | b :: rest => (.ok b, { s with command_buffers := rest })
  | [] =>
    let s := { s with total_buffers := s.total_buffers + 1 }
    if env.allocBufOk then
      (.ok s.fresh, { s with fresh := s.fresh + 1 })
    else
      (.err .AllocateCommandBuffer, s)

/-- Pop a wait semaphore from the free-list stack or create a new one. -/
def allocate_semaphore (env : Env) (i : Nat) (s : Renderer) :
    RRes Nat × Renderer :=
  match s.wait_semaphores with
  | x :: rest => (.ok x, { s with wait_semaphores := rest })
  | [] =>
    if env.createSemOk i then (.ok s.fresh, { s with fresh := s.fresh + 1 })
    else (.err .CreateSemaphore, s)

/-- Create a host-visible staging buffer of the given size and policy
flags. -/
def create_staging_buffer (env : Env) (i : Nat) (size : Nat)
    (upload download coherent : Bool) (s : Renderer) :
    RRes VulkanStagingBuffer × Renderer :=
  if env.createStagingOk i then
    (.ok { id := s.fresh, size, upload, download, coherent },
     { s with fresh := s.fresh + 1 })
  else (.err .CreateBuffer, s)

/-- Classification of one `CopyTexture` texture in `collect_memory`: dma-buf
textures go to `sample`, shm textures with a pending upload to `flush`, and
the texture itself (duplicates included) to `textures`. -/
def collectClassify (m : Memory) (id : Nat) (img : VulkanImage) : Memory :=
  let m1 :=
    match img.ty with
    | .dmaBuf _ => { m with sample := m.sample ++ [id] }
    | .internal shm =>
      if shm.to_flush.isSome then { m with flush := m.flush ++ [id] } else m
  { m1 with textures := m1.textures ++ [id] }

/-- Loop body of `collect_memory` over the ops. -/
def collect_go (s : Renderer) : List GfxApiOpt → RRes Unit × Renderer
  | [] => (.ok (), s)
  | op :: rest =>
    match op with
    | .copyTexture t =>
      (match into_vk s t with
      | .aborted => (.aborted, s)
      | .err e => (.err e, s)
      | .ok (id, img) =>
        collect_go { s with memory := collectClassify s.memory id img } rest)
    | _ => collect_go s rest

/-- Stage 1 of `try_execute`: clear `sample` and `flush`, then classify the
referenced textures. -/
def collect_memory (s : Renderer) (opts : List GfxApiOpt) :
    RRes Unit × Renderer :=
  let m := s.memory
  collect_go { s with memory := { m with sample := [], flush := [] } } opts

/-- Begin the one-time-submit command buffer. -/
def begin_command_buffer (env : Env) (s : Renderer) : RRes Unit × Renderer :=
  if env.beginOk then (.ok (), s) else (.err .BeginCommandBuffer, s)

/-- Loop body of `write_shm_staging_buffers`: one fresh upload staging buffer
per `flush` texture, the pending bytes copied in, paired in
`flush_staging`. -/
def write_staging_go (env : Env) : Nat → Renderer → List Nat →
    RRes Unit × Renderer
  | _, s, [] => (.ok (), s)
  | i, s, id :: rest =>
    match lookupImage s id with
    | none => (.aborted, s)
    | some img =>
      match img.ty with
      | .dmaBuf _ => (.aborted, s)
      | .internal shm =>
        match create_staging_buffer env i shm.size true false true s with
        | (.err e, s1) => (.err e, s1)
        | (.aborted, s1) => (.aborted, s1)
        | (.ok staging, s1) =>
          match shm.to_flush with
          | none => (.aborted, s1)
          | some _ =>
            if env.stagingUploadOk i then
              let m := s1.memory
              write_staging_go env (i + 1)
                { s1 with memory :=
                    { m with flush_staging := m.flush_staging ++ [(id, staging)] } }
                rest
            else (.err .FlushMemory, s1)

/-- Stage 2 of `try_execute`: clear `flush_staging`, then upload the pending
shm bytes of every `flush` texture into fresh staging buffers. -/
def write_shm_staging_buffers (env : Env) (s : Renderer) :
    RRes Unit × Renderer :=
  let m := s.memory
  let s := { s with memory := { m with flush_staging := [] } }
  write_staging_go env 0 s s.memory.flush

/-- Stage 4 of `try_execute`: the initial barrier set — framebuffer foreign
acquire (`UNDEFINED` or `GENERAL` to `COLOR_ATTACHMENT_OPTIMAL`), sample
texture foreign acquires, and flush-pair transfer barriers. -/
def initial_barriers (s : Renderer) (fbId : Nat) : Renderer :=
  let fb := getImage s fbId
  let m := s.memory
  let fbBarrier : ImageBarrier :=
    { image := fbId
      old_layout := if fb.is_undefined then .undefined else .general
      new_layout := .colorAttachmentOptimal
      src_foreign := true, dst_foreign := false }
  let sampleBarriers := m.sample.map fun id =>
    { image := id, old_layout := .general,
      new_layout := .shaderReadOnlyOptimal,
      src_foreign := true, dst_foreign := false : ImageBarrier }
  let flushBarriers := m.flush_staging.map fun p =>
    { image := p.1
      old_layout := if (getImage s p.1).is_undefined then .undefined
        else .shaderReadOnlyOptimal
      new_layout := .transferDstOptimal
      src_foreign := false, dst_foreign := false : ImageBarrier }
  { s with memory :=
      { m with
        image_barriers := fbBarrier :: sampleBarriers ++ flushBarriers
        shm_barriers := m.flush_staging.map fun p => p.2.id } }

/-- Stage 5 of `try_execute`: one `CopyBufferToImage` per flush pair, with
buffer row length `stride / bpp`. -/
def copy_shm_to_image (s : Renderer) : Renderer :=
  { s with trace := s.trace ++ s.memory.flush_staging.map fun p =>
      .copyBufferToImage p.1 ((getImage s p.1).stride / (getImage s p.1).format.bpp) }

/-- Stage 6 of `try_execute`: transfer-to-sampled barriers for the flushed
images; skipped entirely when nothing was flushed. -/
def secondary_barriers (s : Renderer) : Renderer :=
  if s.memory.flush.isEmpty then s
  else
    let m := s.memory
    { s with memory :=
        { m with image_barriers := m.flush.map fun id =>
            { image := id, old_layout := .transferDstOptimal,
              new_layout := .shaderReadOnlyOptimal,
              src_foreign := false, dst_foreign := false : ImageBarrier } } }

/-- Stage 7 of `try_execute`: begin dynamic rendering; `LOAD_OP_CLEAR` is
used iff a clear color was supplied, `LOAD_OP_LOAD` otherwise. -/
def begin_rendering (s : Renderer) (clear : Option Color) : Renderer :=
  { s with trace := s.trace ++ [.beginRendering clear.isSome] }

/-- Stage 9 of `try_execute`: record the draws in op order; `Sync` records
nothing, `FillRect` and `CopyTexture` each draw four vertices, and the
texture downcast of a `CopyTexture` panics on a foreign image. -/
def record_draws (s : Renderer) : List GfxApiOpt → RRes Unit × Renderer
  | [] => (.ok (), s)
  | op :: rest =>
    match op with
    | .sync => record_draws s rest
    | .fillRect => record_draws { s with trace := s.trace ++ [.draw] } rest
    | .copyTexture t =>
      match as_vk s t with
      | .aborted => (.aborted, s)
      | .err e => (.err e, s)
      | .ok _ => record_draws { s with trace := s.trace ++ [.draw] } rest

/-- Stage 11 of `try_execute`: the final barrier set — framebuffer and sample
textures released back to the foreign queue family in `GENERAL` layout. -/
def final_barriers (s : Renderer) (fbId : Nat) : Renderer :=
  let m := s.memory
  let fbBarrier : ImageBarrier :=
    { image := fbId, old_layout := .colorAttachmentOptimal,
      new_layout := .general, src_foreign := false, dst_foreign := true }
  let sampleBarriers := m.sample.map fun id =>
    { image := id, old_layout := .shaderReadOnlyOptimal,
      new_layout := .general, src_foreign := false, dst_foreign := true :
      ImageBarrier }
  { s with memory :=
      { m with image_barriers := fbBarrier :: sampleBarriers
               shm_barriers := [] } }

/-- End the command buffer. -/
def end_command_buffer (env : Env) (s : Renderer) : RRes Unit × Renderer :=
  if env.endOk then (.ok (), s) else (.err .EndCommandBuffer, s)

/-- Per-plane body of the `import` closure of `create_wait_semaphores`:
export a sync-file from the plane with the given flag (failure fails the
frame with `IoctlExportSyncFile`), import it into a recycled-or-fresh
semaphore (failure fails the frame with `ImportSyncFile`), and append the
semaphore to the wait list with stage `TOP_OF_PIPE`. -/
def cws_plane_sems (env : Env) (flag : Nat) : Nat → Renderer →
    List DmaBufPlane → RRes Nat × Renderer
  | i, s, [] => (.ok i, s)
  | i, s, plane :: rest =>
    let expOk := env.exportSyncOk i
    let s := { s with trace := s.trace ++ [.exportSyncFile plane.fd flag expOk] }
    if expOk then
      match allocate_semaphore env i s with
      | (.err e, s1) => (.err e, s1)
      | (.aborted, s1) => (.aborted, s1)
      | (.ok sem, s1) =>
        if env.importSemOk i then
          let m := s1.memory
          cws_plane_sems env flag (i + 1)
            { s1 with memory :=
                { m with
                  wait_semaphore_infos :=
                    m.wait_semaphore_infos ++ [{ semaphore := sem, stage_top_of_pipe := true }]
                  wait_semaphores := m.wait_semaphores ++ [sem] } }
            rest
        else (.err .ImportSyncFile, s1)
    else (.err .IoctlExportSyncFile, s)

/-- The `import` closure of `create_wait_semaphores` for one image: dma-buf
images contribute one semaphore per plane, shm images contribute nothing. -/
def cws_image_sems (env : Env) (flag : Nat) (i : Nat) (img : VulkanImage)
    (s : Renderer) : RRes Nat × Renderer :=
  match img.ty with
  | .dmaBuf buf => cws_plane_sems env flag i s buf.planes
  | .internal _ => (.ok i, s)

/-- Loop of `create_wait_semaphores` over `memory.textures`, each exported
with `DMA_BUF_SYNC_READ`. -/
def cws_textures_go (env : Env) : Nat → Renderer → List Nat →
    RRes Nat × Renderer
  | i, s, [] => (.ok i, s)
  | i, s, id :: rest =>
    match cws_image_sems env DMA_BUF_SYNC_READ i (getImage s id) s with
    | (.err e, s1) => (.err e, s1)
    | (.aborted, s1) => (.aborted, s1)
    | (.ok j, s1) => cws_textures_go env j s1 rest

/-- Body of `create_wait_semaphores` after the submit-info list was cleared:
it imports per-plane read fences of every op texture and the write fence of
the framebuffer into wait semaphores. -/
def cws_after_clear (env : Env) (s : Renderer) (fbId : Nat) :
    RRes Unit × Renderer :=
  match cws_textures_go env 0 s s.memory.textures with
  | (.err e, s1) => (.err e, s1)
  | (.aborted, s1) => (.aborted, s1)
  | (.ok j, s1) =>
    match cws_image_sems env DMA_BUF_SYNC_WRITE j (getImage s1 fbId) s1 with
    | (.err e, s2) => (.err e, s2)
    | (.aborted, s2) => (.aborted, s2)
    | (.ok _, s2) => (.ok (), s2)

/-- Stage 13 of `try_execute`: clear the submit-info list, then import
per-plane read fences of every op texture and the write fence of the
framebuffer into wait semaphores. -/
def create_wait_semaphores (env : Env) (s : Renderer) (fbId : Nat) :
    RRes Unit × Renderer :=
  let m := s.memory
  cws_after_clear env
    { s with memory := { m with wait_semaphore_infos := [] } } fbId

/-- Per-plane body of the `import` closure of `import_release_semaphore`:
it imports the release sync-file into the plane; a failure is logged and
tolerated, never failing the frame. -/
def irs_plane_events (env : Env) (flag : Nat) (planes : List DmaBufPlane) :
    List Event :=
  planes.map fun p => .importSyncFile p.fd flag env.importRelOk

/-- The `import` closure of `import_release_semaphore` for one image. -/
def irs_image_events (env : Env) (flag : Nat) (img : VulkanImage) :
    List Event :=
  match img.ty with
  | .dmaBuf buf => irs_plane_events env flag buf.planes
  | .internal _ => []

/-- Stage 15 of `try_execute`: if a release sync-file exists, import it into
every texture dma-buf plane with `DMA_BUF_SYNC_WRITE` and into every
framebuffer plane with `DMA_BUF_SYNC_READ | DMA_BUF_SYNC_WRITE`; the
function returns no `Result` — failures are only logged. -/
def import_release_semaphore (env : Env) (s : Renderer) (fbId : Nat) :
    Renderer :=
  match s.memory.release_syncfile with
  | none => s
  | some _ =>
    let texEvents := s.memory.textures.map fun id =>
      irs_image_events env DMA_BUF_SYNC_WRITE (getImage s id)
    let fbEvents :=
      irs_image_events env (DMA_BUF_SYNC_READ ||| DMA_BUF_SYNC_WRITE) (getImage s fbId)
    { s with trace := s.trace ++ texEvents.flatten ++ fbEvents }

/-- Stage 14 of `try_execute`: create the release fence, submit once with
the wait list, export the release fence as a sync-file (export failure is
logged and leaves `release_syncfile` as `None`). -/
def submit (env : Env) (s : Renderer) : RRes Unit × Renderer :=
  if env.createFenceOk then
    let fence := s.fresh
    let s := { s with fresh := s.fresh + 1 }
    if env.submitOk then
      let s := { s with trace := s.trace ++ [Event.queueSubmit] }
      let syncfile : Option Nat := if env.exportFenceOk then some s.fresh else none
      let s := if env.exportFenceOk then { s with fresh := s.fresh + 1 } else s
      let m := s.memory
      (.ok (),
       { s with memory := { m with release_fence := some fence,
                                   release_syncfile := syncfile } })
    else (.err .Submit, s)
  else (.err .CreateFence, s)

/-- The per-image effect of `store_layouts` on a flushed shm image: clear
`is_undefined` and drop the pending upload. -/
def clearFlushed (img : VulkanImage) : VulkanImage :=
  match img.ty with
  | .internal shm =>
    { img with is_undefined := false,
               ty := .internal { shm with to_flush := none } }
  | .dmaBuf _ => img

/-- Loop of `store_layouts` over `memory.flush`: clear `is_undefined` and
drop `to_flush`; a dma-buf image in the flush set is `unreachable!`. -/
def store_go (s : Renderer) : List Nat → RRes Unit × Renderer
  | [] => (.ok (), s)
  | id :: rest =>
    match (getImage s id).ty with
    | .dmaBuf _ => (.aborted, s)
    | .internal _ => store_go (updateImage s id clearFlushed) rest

/-- Stage 16 of `try_execute`: clear `is_undefined` on the framebuffer and on
every flushed image, dropping their pending uploads. -/
def store_layouts (s : Renderer) (fbId : Nat) : RRes Unit × Renderer :=
  let s := updateImage s fbId fun img => { img with is_undefined := false }
  store_go s s.memory.flush

/-- Stage 17 of `try_execute`: assign `point = last_point + 1`, move the
command buffer, textures, staging pairs, wait semaphores, release fence and
release sync-file into a new pending frame, insert it into `pending_frames`
and hand the sync-file to the spawned waiter. -/
def create_pending_frame (s : Renderer) (buf : Nat) : Renderer :=
  let point := s.last_point + 1
  let m := s.memory
  let frame : PendingFrame :=
    { point
      cmd := some buf
      textures := m.textures
      staging := m.flush_staging
      wait_semaphores := m.wait_semaphores
      release_fence := m.release_fence
      syncfile := m.release_syncfile }
  { s with
    last_point := point
    memory := { m with textures := [], flush_staging := [],
                       wait_semaphores := [], release_fence := none,
                       release_syncfile := none }
    pending_frames := (point, frame) :: s.pending_frames }

/-- The per-frame execution protocol `VulkanRenderer::try_execute`, stages in
source order. -/
def try_execute (env : Env) (s : Renderer) (fbId : Nat)
    (opts : List GfxApiOpt) (clear : Option Color) : RRes Unit × Renderer :=
  rbind (allocate_command_buffer env s) fun buf s =>
  rbind (collect_memory s opts) fun _ s =>
  rbind (begin_command_buffer env s) fun _ s =>
  rbind (write_shm_staging_buffers env s) fun _ s =>
  let s := initial_barriers s fbId
  let s := copy_shm_to_image s
  let s := secondary_barriers s
  let s := begin_rendering s clear
  rbind (record_draws s opts) fun _ s =>
  let s := final_barriers s fbId
  rbind (end_command_buffer env s) fun _ s =>
  rbind (create_wait_semaphores env s fbId) fun _ s =>
  rbind (submit env s) fun _ s =>
  let s := import_release_semaphore env s fbId
  rbind (store_layouts s fbId) fun _ s =>
  (.ok (), create_pending_frame s buf)

/-- `VulkanRenderer::execute`: run `try_execute` and, whatever it returned,
clear the per-frame scratch fields before returning the result. -/
def execute (env : Env) (s : Renderer) (fbId : Nat)
    (opts : List GfxApiOpt) (clear : Option Color) : RRes Unit × Renderer :=
  let r := try_execute env s fbId opts clear
  let s1 := r.2
  let m := s1.memory
  (r.1,
   { s1 with memory :=
       { m with flush := [], textures := [], flush_staging := [],
                sample := [], wait_semaphores := [], release_fence := none,
                release_syncfile := none } })

/-- The release-watcher task `await_release`, run after its awaited
readability completes: if there was no sync-file or the reactor reported an
error (`reactorOk = false`), fall back to `device_wait_idle`; push the
command buffer and every wait semaphore back onto the free-list stacks; then
remove this frame from `pending_frames`. -/
def await_release (reactorOk : Bool) (frame : PendingFrame) (s : Renderer) :
    Renderer :=
  let is_released := frame.syncfile.isSome && reactorOk
  let s := if is_released then s else block s
  let s :=
    match frame.cmd with
    | some b => { s with command_buffers := b :: s.command_buffers }
    | none => s
  let s :=
    { s with wait_semaphores :=
        frame.wait_semaphores.foldl (fun acc x => x :: acc) s.wait_semaphores }
  { s with pending_frames := s.pending_frames.filter fun p => p.1 ≠ frame.point }

/-- Context teardown `VulkanRenderer::on_drop`: with pending frames
remaining, block on `device_wait_idle`, cancel the waiters and clear the
pending map. -/
def on_drop (s : Renderer) : Renderer :=
  let s := if s.pending_frames.isEmpty then s else block s
  { s with pending_frames := [] }

/-- Modelled from the spec: `VulkanRenderer::create_shm_texture`
(vulkan/image.rs, not under src; spec section 4.4): validate
`stride ≥ width·bpp` and `stride mod bpp = 0` (`InvalidStride`), compute
`size = stride·height` with a checked 64-bit multiplication (`ShmOverflow`),
allocate a device-local image (here: a fresh id in the image store) and
remember the pixel data, when supplied, as the pending upload `to_flush`. -/
def create_shm_texture (env : Env) (s : Renderer) (format : Format)
    (width height stride : Nat) (data : List Nat) (for_render : Bool) :
    RRes Nat × Renderer :=
  if stride < width * format.bpp ∨ stride % format.bpp ≠ 0 then
    (.err .InvalidStride, s)
  else
    let size := stride * height
    if 2 ^ 64 ≤ size then (.err .ShmOverflow, s)
    else if env.createShmImageOk then
      let id := s.fresh
      let img : VulkanImage :=
        { width, height, stride, format
          is_undefined := true
          ty := .internal
            { stride, size
              to_flush := if data.isEmpty then none else some data }
          deviceH := s.deviceH }
      let _ := for_render
      (.ok id, { s with fresh := s.fresh + 1, images := (id, img) :: s.images })
    else (.err .CreateImage, s)

/-- Modelled from the spec: `GfxFramebuffer::copy_texture` (gfx_api, not
under src; spec section 4.10): have the temporary render target issue a
`CopyTexture` of the source into itself via one `execute`; the result is
discarded. -/
def copy_texture (env : Env) (s : Renderer) (fbId texId : Nat) : Renderer :=
  (execute env s fbId [.copyTexture (.vulkan texId)] none).2

/-- Per-plane wait-semaphore setup of `read_all_pixels` for a dma-buf
source: export a read fence per plane and import it into a semaphore. -/
def rap_sems_go (env : Env) : Nat → Renderer → List DmaBufPlane →
    List Nat → RRes (List Nat) × Renderer
  | _, s, [], acc => (.ok acc, s)
  | i, s, plane :: rest, acc =>
    let expOk := env.exportSyncOk i
    let s := { s with trace :=
        s.trace ++ [.exportSyncFile plane.fd DMA_BUF_SYNC_READ expOk] }
    if expOk then
      match allocate_semaphore env i s with
      | (.err e, s1) => (.err e, s1)
      | (.aborted, s1) => (.aborted, s1)
      | (.ok sem, s1) =>
        if env.importSemOk i then
          rap_sems_go env (i + 1) s1 rest (acc ++ [sem])
        else (.err .ImportSyncFile, s1)
    else (.err .IoctlExportSyncFile, s)

/-- `VulkanRenderer::read_all_pixels`: the whole-image readback fast path.
Validate the stride against the texture (`InvalidStride`) and the
destination size (`InvalidBufferSize`), then create a download staging
buffer, record a `CopyImageToBuffer`, submit with per-plane read semaphores
for dma-buf sources, block on `device_wait_idle`, recycle the buffer and
semaphores, and copy the staging contents out. -/
def read_all_pixels (env : Env) (s : Renderer) (texId : Nat)
    (stride : Nat) (dstLen : Nat) : RRes Unit × Renderer :=
  let tex := getImage s texId
  if stride < tex.width * tex.format.bpp ∨ stride % tex.format.bpp ≠ 0 then
    (.err .InvalidStride, s)
  else
    let size := stride * tex.height
    if size ≠ dstLen then (.err .InvalidBufferSize, s)
    else
      rbind (create_staging_buffer env 0 size false true true s) fun _ s =>
      rbind (allocate_command_buffer env s) fun buf s =>
      rbind
        (match tex.ty with
         | .dmaBuf dbuf => rap_sems_go env 0 s dbuf.planes []
         | .internal _ => (.ok [], s)) fun sems s =>
      rbind (begin_command_buffer env s) fun _ s =>
      let s := { s with trace := s.trace ++ [.copyImageToBuffer texId] }
      rbind (end_command_buffer env s) fun _ s =>
      if env.submitOk then
        let s := { s with trace := s.trace ++ [Event.queueSubmit] }
        let s := block s
        let s := { s with command_buffers := buf :: s.command_buffers }
        let s :=
          { s with wait_semaphores :=
              sems.foldl (fun acc x => x :: acc) s.wait_semaphores }
        if env.downloadOk then (.ok (), s) else (.err .MapMemory, s)
      else (.err .Submit, s)

/-- `VulkanRenderer::read_pixels`: validate the shm parameters
(`InvalidShmParameters`), take the whole-texture fast path when the request
covers the texture in its native format, and otherwise blit the requested
subrectangle into a temporary shm render target and read that back. -/
def read_pixels (env : Env) (s : Renderer) (texId : Nat)
    (x y width height stride : Int) (format : Format) (dstLen : Nat) :
    RRes Unit × Renderer :=
  if x < 0 ∨ y < 0 ∨ width ≤ 0 ∨ height ≤ 0 ∨ stride ≤ 0 then
    (.err (.InvalidShmParameters x y width height stride), s)
  else
    let w := width.toNat
    let h := height.toNat
    let str := stride.toNat
    let tex := getImage s texId
    if x = 0 ∧ y = 0 ∧ w = tex.width ∧ h = tex.height ∧ format = tex.format then
      read_all_pixels env s texId str dstLen
    else
      match create_shm_texture env s format w h str [] true with
      | (.err e, s1) => (.err e, s1)
      | (.aborted, s1) => (.aborted, s1)
      | (.ok tmpId, s1) =>
        let s2 := copy_texture env s1 tmpId texId
        read_all_pixels env s2 tmpId str dstLen

/-- One modifier entry of the device's per-format table: the modifier and
the optional maximum extents for texture use and render use. -/
structure VulkanModifier where
  modifier : Nat
  texture_max_extents : Option (Nat × Nat)
  render_max_extents : Option (Nat × Nat)
  deriving DecidableEq, Repr

/-- One entry of `VulkanDevice::formats`. -/
structure VulkanFormatEntry where
  format : Format
  modifiers : List VulkanModifier
  deriving DecidableEq, Repr

/-- One entry of the advertised `GfxFormat` map. -/
structure GfxFormat where
  format : Format
  read_modifiers : List Nat
  write_modifiers : List Nat
  deriving DecidableEq, Repr

/-- The advertised entry built from one device format entry: the read
modifiers are those with a texture extent bound, the write modifiers those
with a render extent bound. -/
def gfxFormatOf (e : VulkanFormatEntry) : GfxFormat :=
  { format := e.format
    read_modifiers :=
      (e.modifiers.filter fun m => m.texture_max_extents.isSome).map
        fun m => m.modifier
    write_modifiers :=
      (e.modifiers.filter fun m => m.render_max_extents.isSome).map
        fun m => m.modifier }

/-- The format map built by `VulkanDevice::create_renderer` and returned by
`Context::formats`. -/
def create_renderer_formats (dev : List (Nat × VulkanFormatEntry)) :
    List (Nat × GfxFormat) :=
  dev.map fun p => (p.1, gfxFormatOf p.2)

/-- The DRM fourcc of XRGB8888. -/
def XRGB8888 : Nat := 0x34325258

/-- Modelled from the spec: device construction (vulkan/device.rs, not under
src; spec sections 3 and 4.2 step 4) fails with `VulkanError::XRGB8888`
unless the XRGB8888 format is both sampleable and renderable: some modifier
carries a texture extent bound and some modifier — not necessarily the same
one — carries a render extent bound.  Every constructed device's format
table satisfies this. -/
def device_formats_ok (dev : List (Nat × VulkanFormatEntry)) : Prop :=
  ∃ e, dev.lookup XRGB8888 = some e ∧
    (∃ vm ∈ e.modifiers, vm.texture_max_extents.isSome) ∧
    (∃ vm ∈ e.modifiers, vm.render_max_extents.isSome)

/-! ### Pure specification helpers -/

/-- The image id referenced by an op, if it is a `CopyTexture` of a Vulkan
image. -/
def texIdOf : GfxApiOpt → Option Nat
  | .copyTexture (.vulkan id) => some id
  | _ => none

/-- One image id per `CopyTexture` op, in op order, duplicates included. -/
def opTexIds (opts : List GfxApiOpt) : List Nat :=
  opts.filterMap texIdOf

/-- True when the id denotes a dma-buf image of the store. -/
def isDmaAt (s : Renderer) (id : Nat) : Bool :=
  match lookupImage s id with
  | some img =>
    match img.ty with
    | .dmaBuf _ => true
    | .internal _ => false
  | none => false

/-- True when the id denotes an shm image of the store with a pending
upload. -/
def pendingShmAt (s : Renderer) (id : Nat) : Bool :=
  match lookupImage s id with
  | some img =>
    match img.ty with
    | .internal shm => shm.to_flush.isSome
    | .dmaBuf _ => false
  | none => false

/-- The pending upload of an image, when it is an shm image. -/
def imgToFlush (img : VulkanImage) : Option (List Nat) :=
  match img.ty with
  | .internal shm => shm.to_flush
  | .dmaBuf _ => none

/-- Whether an error is the `InvalidShmParameters` one. -/
def isShmParams : VulkanError → Bool
  | .InvalidShmParameters _ _ _ _ _ => true
  | _ => false

/-- Whether a step result carries the `InvalidShmParameters` error. -/
def isShmParamsErr {α : Type} : RRes α × Renderer → Bool
  | (.err e, _) => isShmParams e
  | _ => false

/-- The sync-file export events recorded for one image at a given flag when
every export succeeds: one per dma-buf plane, none for shm images. -/
def exportEventsFor (img : VulkanImage) (flag : Nat) : List Event :=
  match img.ty with
  | .dmaBuf buf => buf.planes.map fun p => .exportSyncFile p.fd flag true
  | .internal _ => []

/-- Number of dma-buf planes of an image (0 for shm images). -/
def planeCount (img : VulkanImage) : Nat :=
  match img.ty with
  | .dmaBuf buf => buf.planes.length
  | .internal _ => 0

/-- The state projections that the frame-accounting claims track: device,
image store, pending map, `last_point`, and the `flush` scratch list. -/
def QuietPres (s s' : Renderer) : Prop :=
  s'.deviceH = s.deviceH ∧ s'.images = s.images ∧
  s'.pending_frames = s.pending_frames ∧ s'.last_point = s.last_point ∧
  s'.memory.flush = s.memory.flush

/-- The pending-frame key invariant maintained by the renderer: every key of
the pending map is at most `last_point`.  It holds in the initial state
(both empty/zero) and `execute` preserves it. -/
def goodState (s : Renderer) : Prop :=
  ∀ k ∈ s.pending_frames.map Prod.fst, k ≤ s.last_point

instance (s : Renderer) : Decidable (goodState s) := by
  unfold goodState
  infer_instance

/-! ### Test fixture used by the witnesses -/

/-- XRGB8888-like format with 4 bytes per pixel. -/
def fmtX : Format := { drm := XRGB8888, vk_format := 44, bpp := 4 }

/-- An shm texture with a pending upload. -/
def imgShmPending : VulkanImage :=
  { width := 2, height := 2, stride := 8, format := fmtX,
    is_undefined := true,
    ty := .internal { stride := 8, size := 16, to_flush := some [1, 2, 3] },
    deviceH := 7 }

/-- A two-plane dma-buf texture. -/
def imgDma : VulkanImage :=
  { width := 2, height := 2, stride := 8, format := fmtX,
    is_undefined := false,
    ty := .dmaBuf { planes := [{ fd := 30 }, { fd := 31 }] }, deviceH := 7 }

/-- An shm framebuffer with no pending upload. -/
def imgFb : VulkanImage :=
  { width := 4, height := 4, stride := 16, format := fmtX,
    is_undefined := true,
    ty := .internal { stride := 16, size := 64, to_flush := none },
    deviceH := 7 }

/-- The empty scratch struct. -/
def emptyMemory : Memory :=
  { sample := [], flush := [], flush_staging := [], textures := [],
    image_barriers := [], shm_barriers := [], wait_semaphores := [],
    wait_semaphore_infos := [], release_fence := none,
    release_syncfile := none }

/-- A small renderer state: one pending-upload shm texture (id 0), one
dma-buf texture (id 1) and one shm framebuffer (id 2). -/
def testS : Renderer :=
  { deviceH := 7, images := [(0, imgShmPending), (1, imgDma), (2, imgFb)],
    command_buffers := [], wait_semaphores := [], total_buffers := 0,
    memory := emptyMemory, pending_frames := [], last_point := 0,
    fresh := 100, trace := [] }

/-- A mixed op list referencing both textures. -/
def testOps : List GfxApiOpt :=
  [.fillRect, .copyTexture (.vulkan 0), .copyTexture (.vulkan 1), .sync]

/-- A pending frame used by the C3 witness. -/
def testFrame : PendingFrame :=
  { point := 5, cmd := some 42, textures := [0], staging := [],
    wait_semaphores := [9, 10], release_fence := some 77,
    syncfile := some 55 }

/-- A renderer state with `testFrame` pending. -/
def testS2 : Renderer :=
  { testS with pending_frames := [(5, testFrame)], last_point := 5 }

/-- The export events of the texture loop of `create_wait_semaphores`. -/
def cwsTexTraceSpec (s : Renderer) (T : List Nat) : List Event :=
  (T.map fun id => exportEventsFor (getImage s id) DMA_BUF_SYNC_READ).flatten

/-- Total dma-buf plane count over a texture list. -/
def totalPlanesTex (s : Renderer) (T : List Nat) : Nat :=
  (T.map fun id => planeCount (getImage s id)).sum

/-- The trace appended by `import_release_semaphore`: nothing when there is
no release sync-file, otherwise one import per texture dma-buf plane with
`DMA_BUF_SYNC_WRITE` and one per framebuffer plane with
`DMA_BUF_SYNC_READ | DMA_BUF_SYNC_WRITE`, each recording whether the ioctl
succeeded. -/
def irsDelta (env : Env) (s : Renderer) (fbId : Nat) : List Event :=
  match s.memory.release_syncfile with
  | none => []
  | some _ =>
    (s.memory.textures.map fun id =>
      irs_image_events env DMA_BUF_SYNC_WRITE (getImage s id)).flatten ++
    irs_image_events env (DMA_BUF_SYNC_READ ||| DMA_BUF_SYNC_WRITE)
      (getImage s fbId)

/-- Environment where every call succeeds except the release-fence dma-buf
sync-file import ioctl. -/
def badImportEnv : Env := { okEnv with importRelOk := false }

/-- The texture-only modifier of the C8 witness table. -/
def testVm : VulkanModifier :=
  { modifier := 77, texture_max_extents := some (4096, 4096),
    render_max_extents := none }

/-- The render-only modifier of the C8 witness table. -/
def testVm2 : VulkanModifier :=
  { modifier := 88, texture_max_extents := none,
    render_max_extents := some (2048, 2048) }

/-- The XRGB8888 entry of the C8 witness table: sampleable via modifier 77
and renderable via modifier 88, with no single modifier supporting both
roles. -/
def testEntry : VulkanFormatEntry :=
  { format := fmtX, modifiers := [testVm, testVm2] }

/-- A one-entry device format table for the C8 witness. -/
def testDev : List (Nat × VulkanFormatEntry) := [(XRGB8888, testEntry)]

/-- Op list with a duplicated dma-buf reference for the C10 witness. -/
def testOpsDup : List GfxApiOpt :=
  [.copyTexture (.vulkan 1), .sync, .copyTexture (.vulkan 1), .fillRect]

/-! ### Generic lemmas about the store and the result monad -/

theorem lookup_map_update_self (images : List (Nat × VulkanImage)) (id : Nat)
    (f : VulkanImage → VulkanImage) :
    (images.map fun p => if p.1 = id then (p.1, f p.2) else p).lookup id =
      (images.lookup id).map f := by
  induction images with
  | nil => simp
  | cons hd tl ih =>
    rcases hd with ⟨k, v⟩
    by_cases hk : k = id
    · subst hk
      rw [List.map_cons, if_pos (rfl : ((k, v) : Nat × VulkanImage).1 = k)]
      simp [List.lookup]
    · simp only [List.map_cons, if_neg (by simpa using hk)]
      have hne : (id == k) = false := by simp [Ne.symm hk]
      simp [List.lookup, hne, ih]

theorem lookup_map_update_ne (images : List (Nat × VulkanImage)) (id q : Nat)
    (f : VulkanImage → VulkanImage) (h : q ≠ id) :
    (images.map fun p => if p.1 = id then (p.1, f p.2) else p).lookup q =
      images.lookup q := by
  induction images with
  | nil => simp
  | cons hd tl ih =>
    rcases hd with ⟨k, v⟩
    by_cases hk : k = id
    · subst hk
      rw [List.map_cons, if_pos (rfl : ((k, v) : Nat × VulkanImage).1 = k)]
      have hne : (q == k) = false := by simp [h]
      simp [List.lookup, hne, ih]
    · simp only [List.map_cons, if_neg (by simpa using hk)]
      by_cases hq : q = k
      · subst hq
        simp [List.lookup]
      · have hne : (q == k) = false := by simp [hq]
        simp [List.lookup, hne, ih]

theorem lookupImage_updateImage_self (s : Renderer) (id : Nat)
    (f : VulkanImage → VulkanImage) :
    lookupImage (updateImage s id f) id = (lookupImage s id).map f := by
  simp [lookupImage, updateImage, lookup_map_update_self]

theorem lookupImage_updateImage_ne (s : Renderer) (id q : Nat)
    (f : VulkanImage → VulkanImage) (h : q ≠ id) :
    lookupImage (updateImage s id f) q = lookupImage s q := by
  simp [lookupImage, updateImage, lookup_map_update_ne _ _ _ _ h]

/-! ### Preservation lemmas for the stages of `try_execute` -/

theorem quietPres_refl (s : Renderer) : QuietPres s s := by
  simp [QuietPres]

theorem quietPres_trans {s t u : Renderer} (h1 : QuietPres s t)
    (h2 : QuietPres t u) : QuietPres s u := by
  obtain ⟨a1, b1, c1, d1, e1⟩ := h1
  obtain ⟨a2, b2, c2, d2, e2⟩ := h2
  exact ⟨a2.trans a1, b2.trans b1, c2.trans c1, d2.trans d1, e2.trans e1⟩

theorem alloc_cb_quiet (env : Env) (s : Renderer) :
    QuietPres s (allocate_command_buffer env s).2 ∧
    (allocate_command_buffer env s).2.memory = s.memory := by
  cases h : s.command_buffers with
  | nil =>
    simp only [allocate_command_buffer, h, QuietPres]
    split <;> simp
  | cons b rest => simp [allocate_command_buffer, h, QuietPres]

theorem collect_go_quiet (opts : List GfxApiOpt) : ∀ s : Renderer,
    (collect_go s opts).2.deviceH = s.deviceH ∧
    (collect_go s opts).2.images = s.images ∧
    (collect_go s opts).2.pending_frames = s.pending_frames ∧
    (collect_go s opts).2.last_point = s.last_point := by
  induction opts with
  | nil => intro s; simp [collect_go]
  | cons op rest ih =>
    intro s
    cases op with
    | sync => simpa [collect_go] using ih s
    | fillRect => simpa [collect_go] using ih s
    | copyTexture t =>
      cases hiv : into_vk s t with
      | aborted => simp [collect_go, hiv]
      | err e => simp [collect_go, hiv]
      | ok v =>
        rcases v with ⟨id, img⟩
        simp only [collect_go, hiv]
        exact ih _

theorem collect_memory_quiet (s : Renderer) (opts : List GfxApiOpt) :
    (collect_memory s opts).2.deviceH = s.deviceH ∧
    (collect_memory s opts).2.images = s.images ∧
    (collect_memory s opts).2.pending_frames = s.pending_frames ∧
    (collect_memory s opts).2.last_point = s.last_point := by
  simpa [collect_memory] using collect_go_quiet opts _

theorem write_staging_go_quiet (env : Env) (l : List Nat) :
    ∀ (i : Nat) (s : Renderer),
    QuietPres s (write_staging_go env i s l).2 ∧
    (write_staging_go env i s l).2.memory.textures = s.memory.textures ∧
    (write_staging_go env i s l).2.memory.sample = s.memory.sample := by
  induction l with
  | nil => intro i s; simp [write_staging_go, quietPres_refl]
  | cons id rest ih =>
    intro i s
    cases hlk : lookupImage s id with
    | none => simp [write_staging_go, hlk, quietPres_refl]
    | some img =>
      cases hty : img.ty with
      | dmaBuf buf => simp [write_staging_go, hlk, hty, quietPres_refl]
      | internal shm =>
        simp only [write_staging_go, hlk, hty]
        cases hcs : create_staging_buffer env i shm.size true false true s with
        | mk r s1 =>
          have hs1 : s1.deviceH = s.deviceH ∧ s1.images = s.images ∧
              s1.pending_frames = s.pending_frames ∧
              s1.last_point = s.last_point ∧ s1.memory = s.memory := by
            revert hcs
            unfold create_staging_buffer
            split <;> intro hcs <;> cases hcs <;> simp
          cases r with
          | err e =>
            simp only []
            exact ⟨⟨hs1.1, hs1.2.1, hs1.2.2.1, hs1.2.2.2.1, by rw [hs1.2.2.2.2]⟩,
              by rw [hs1.2.2.2.2], by rw [hs1.2.2.2.2]⟩
          | aborted =>
            exact ⟨⟨hs1.1, hs1.2.1, hs1.2.2.1, hs1.2.2.2.1, by rw [hs1.2.2.2.2]⟩,
              by rw [hs1.2.2.2.2], by rw [hs1.2.2.2.2]⟩
          | ok staging =>
            cases htf : shm.to_flush with
            | none =>
              exact ⟨⟨hs1.1, hs1.2.1, hs1.2.2.1, hs1.2.2.2.1, by rw [hs1.2.2.2.2]⟩,
                by rw [hs1.2.2.2.2], by rw [hs1.2.2.2.2]⟩
            | some bytes =>
              simp only []
              split
              · obtain ⟨⟨qa, qb, qc, qd, qe⟩, ht, hsm⟩ := ih (i + 1) _
                refine ⟨⟨qa.trans hs1.1, qb.trans hs1.2.1, qc.trans hs1.2.2.1,
                  qd.trans hs1.2.2.2.1, ?_⟩, ?_, ?_⟩
                · rw [qe]; simp [hs1.2.2.2.2]
                · rw [ht]; simp [hs1.2.2.2.2]
                · rw [hsm]; simp [hs1.2.2.2.2]
              · exact ⟨⟨hs1.1, hs1.2.1, hs1.2.2.1, hs1.2.2.2.1, by rw [hs1.2.2.2.2]⟩,
                  by rw [hs1.2.2.2.2], by rw [hs1.2.2.2.2]⟩

theorem write_shm_staging_buffers_quiet (env : Env) (s : Renderer) :
    QuietPres s (write_shm_staging_buffers env s).2 ∧
    (write_shm_staging_buffers env s).2.memory.textures = s.memory.textures ∧
    (write_shm_staging_buffers env s).2.memory.sample = s.memory.sample := by
  unfold write_shm_staging_buffers
  obtain ⟨⟨qa, qb, qc, qd, qe⟩, ht, hsm⟩ := write_staging_go_quiet env
    s.memory.flush 0 _
  exact ⟨⟨qa, qb, qc, qd, by simpa using qe⟩, by simpa using ht,
    by simpa using hsm⟩

theorem begin_cb_state (env : Env) (s : Renderer) :
    (begin_command_buffer env s).2 = s := by
  unfold begin_command_buffer
  split <;> rfl

theorem end_cb_state (env : Env) (s : Renderer) :
    (end_command_buffer env s).2 = s := by
  unfold end_command_buffer
  split <;> rfl

theorem initial_barriers_quiet (s : Renderer) (fbId : Nat) :
    QuietPres s (initial_barriers s fbId) ∧
    (initial_barriers s fbId).memory.textures = s.memory.textures ∧
    (initial_barriers s fbId).memory.sample = s.memory.sample ∧
    (initial_barriers s fbId).memory.flush_staging = s.memory.flush_staging := by
  simp [initial_barriers, QuietPres]

theorem copy_shm_to_image_quiet (s : Renderer) :
    QuietPres s (copy_shm_to_image s) ∧
    (copy_shm_to_image s).memory = s.memory := by
  simp [copy_shm_to_image, QuietPres]

theorem secondary_barriers_quiet (s : Renderer) :
    QuietPres s (secondary_barriers s) ∧
    (secondary_barriers s).memory.textures = s.memory.textures ∧
    (secondary_barriers s).memory.sample = s.memory.sample ∧
    (secondary_barriers s).memory.flush_staging = s.memory.flush_staging := by
  unfold secondary_barriers
  split <;> simp [QuietPres]

theorem begin_rendering_quiet (s : Renderer) (clear : Option Color) :
    QuietPres s (begin_rendering s clear) ∧
    (begin_rendering s clear).memory = s.memory := by
  simp [begin_rendering, QuietPres]

theorem record_draws_quiet (opts : List GfxApiOpt) : ∀ s : Renderer,
    QuietPres s (record_draws s opts).2 ∧
    (record_draws s opts).2.memory = s.memory := by
  induction opts with
  | nil => intro s; simp [record_draws, quietPres_refl]
  | cons op rest ih =>
    intro s
    cases op with
    | sync => simpa [record_draws] using ih s
    | fillRect =>
      obtain ⟨⟨qa, qb, qc, qd, qe⟩, hm⟩ := ih { s with trace := s.trace ++ [.draw] }
      exact ⟨⟨qa, qb, qc, qd, by simpa using qe⟩, by simpa using hm⟩
    | copyTexture t =>
      cases hiv : as_vk s t with
      | aborted => simp [record_draws, hiv, quietPres_refl]
      | err e => simp [record_draws, hiv, quietPres_refl]
      | ok v =>
        simp only [record_draws, hiv]
        obtain ⟨⟨qa, qb, qc, qd, qe⟩, hm⟩ := ih { s with trace := s.trace ++ [.draw] }
        exact ⟨⟨qa, qb, qc, qd, by simpa using qe⟩, by simpa using hm⟩

theorem final_barriers_quiet (s : Renderer) (fbId : Nat) :
    QuietPres s (final_barriers s fbId) ∧
    (final_barriers s fbId).memory.textures = s.memory.textures ∧
    (final_barriers s fbId).memory.sample = s.memory.sample ∧
    (final_barriers s fbId).memory.flush_staging = s.memory.flush_staging := by
  simp [final_barriers, QuietPres]

theorem allocate_semaphore_quiet (env : Env) (i : Nat) (s : Renderer) :
    QuietPres s (allocate_semaphore env i s).2 ∧
    (allocate_semaphore env i s).2.memory = s.memory := by
  cases h : s.wait_semaphores with
  | nil =>
    simp only [allocate_semaphore, h, QuietPres]
    split <;> simp
  | cons x rest => simp [allocate_semaphore, h, QuietPres]

theorem cws_plane_sems_quiet (env : Env) (flag : Nat)
    (planes : List DmaBufPlane) : ∀ (i : Nat) (s : Renderer),
    QuietPres s (cws_plane_sems env flag i s planes).2 ∧
    (cws_plane_sems env flag i s planes).2.memory.textures =
      s.memory.textures ∧
    (cws_plane_sems env flag i s planes).2.memory.sample = s.memory.sample ∧
    (cws_plane_sems env flag i s planes).2.memory.flush_staging =
      s.memory.flush_staging ∧
    (cws_plane_sems env flag i s planes).2.memory.release_fence =
      s.memory.release_fence ∧
    (cws_plane_sems env flag i s planes).2.memory.release_syncfile =
      s.memory.release_syncfile := by
  induction planes with
  | nil => intro i s; simp [cws_plane_sems, quietPres_refl]
  | cons plane rest ih =>
    intro i s
    simp only [cws_plane_sems]
    split
    · cases hca : allocate_semaphore env i
          { s with trace := s.trace ++
              [.exportSyncFile plane.fd flag (env.exportSyncOk i)] } with
      | mk r s1 =>
        have hq := allocate_semaphore_quiet env i
          { s with trace := s.trace ++
              [.exportSyncFile plane.fd flag (env.exportSyncOk i)] }
        rw [hca] at hq
        obtain ⟨⟨qa, qb, qc, qd, _⟩, hm⟩ := hq
        have base : QuietPres s s1 ∧ s1.memory = s.memory := by
          refine ⟨⟨by simpa using qa, by simpa using qb, by simpa using qc,
            by simpa using qd, ?_⟩, by simpa using hm⟩
          rw [show s1.memory = ({ s with trace := s.trace ++
            [.exportSyncFile plane.fd flag (env.exportSyncOk i)] } :
              Renderer).memory from hm]
        obtain ⟨⟨ba, bb, bc, bd, be⟩, bm⟩ := base
        cases r with
        | err e => exact ⟨⟨ba, bb, bc, bd, be⟩, by rw [bm], by rw [bm],
            by rw [bm], by rw [bm], by rw [bm]⟩
        | aborted => exact ⟨⟨ba, bb, bc, bd, be⟩, by rw [bm], by rw [bm],
            by rw [bm], by rw [bm], by rw [bm]⟩
        | ok sem =>
          simp only []
          split
          · obtain ⟨⟨ia, ib, ic, id', ie⟩, it, isa, ifs, irf, irs⟩ := ih (i + 1) _
            refine ⟨⟨ia.trans ba, ib.trans bb, ic.trans bc, id'.trans bd, ?_⟩,
              ?_, ?_, ?_, ?_, ?_⟩
            · rw [ie]; simp [bm]
            · rw [it]; simp [bm]
            · rw [isa]; simp [bm]
            · rw [ifs]; simp [bm]
            · rw [irf]; simp [bm]
            · rw [irs]; simp [bm]
          · exact ⟨⟨ba, bb, bc, bd, be⟩, by rw [bm], by rw [bm], by rw [bm],
              by rw [bm], by rw [bm]⟩
    · simp [QuietPres]

theorem cws_image_sems_quiet (env : Env) (flag i : Nat) (img : VulkanImage)
    (s : Renderer) :
    QuietPres s (cws_image_sems env flag i img s).2 ∧
    (cws_image_sems env flag i img s).2.memory.textures =
      s.memory.textures ∧
    (cws_image_sems env flag i img s).2.memory.sample = s.memory.sample ∧
    (cws_image_sems env flag i img s).2.memory.flush_staging =
      s.memory.flush_staging ∧
    (cws_image_sems env flag i img s).2.memory.release_fence =
      s.memory.release_fence ∧
    (cws_image_sems env flag i img s).2.memory.release_syncfile =
      s.memory.release_syncfile := by
  cases hty : img.ty with
  | dmaBuf buf =>
    simpa [cws_image_sems, hty] using cws_plane_sems_quiet env flag buf.planes i s
  | internal shm => simp [cws_image_sems, hty, quietPres_refl]

theorem cws_textures_go_quiet (env : Env) (l : List Nat) :
    ∀ (i : Nat) (s : Renderer),
    QuietPres s (cws_textures_go env i s l).2 ∧
    (cws_textures_go env i s l).2.memory.textures = s.memory.textures ∧
    (cws_textures_go env i s l).2.memory.sample = s.memory.sample ∧
    (cws_textures_go env i s l).2.memory.flush_staging =
      s.memory.flush_staging ∧
    (cws_textures_go env i s l).2.memory.release_fence =
      s.memory.release_fence ∧
    (cws_textures_go env i s l).2.memory.release_syncfile =
      s.memory.release_syncfile := by
  induction l with
  | nil => intro i s; simp [cws_textures_go, quietPres_refl]
  | cons id rest ih =>
    intro i s
    simp only [cws_textures_go]
    cases hci : cws_image_sems env DMA_BUF_SYNC_READ i (getImage s id) s with
    | mk r s1 =>
      have hq := cws_image_sems_quiet env DMA_BUF_SYNC_READ i (getImage s id) s
      rw [hci] at hq
      obtain ⟨hqp, ht, hsa, hfs, hrf, hrs⟩ := hq
      cases r with
      | err e => exact ⟨hqp, ht, hsa, hfs, hrf, hrs⟩
      | aborted => exact ⟨hqp, ht, hsa, hfs, hrf, hrs⟩
      | ok j =>
        obtain ⟨iqp, it, isa, ifs, irf, irs⟩ := ih j s1
        exact ⟨quietPres_trans hqp iqp, it.trans ht, isa.trans hsa,
          ifs.trans hfs, irf.trans hrf, irs.trans hrs⟩

theorem cws_after_clear_quiet (env : Env) (s : Renderer) (fbId : Nat) :
    QuietPres s (cws_after_clear env s fbId).2 ∧
    (cws_after_clear env s fbId).2.memory.textures = s.memory.textures ∧
    (cws_after_clear env s fbId).2.memory.sample = s.memory.sample ∧
    (cws_after_clear env s fbId).2.memory.flush_staging =
      s.memory.flush_staging ∧
    (cws_after_clear env s fbId).2.memory.release_fence =
      s.memory.release_fence ∧
    (cws_after_clear env s fbId).2.memory.release_syncfile =
      s.memory.release_syncfile := by
  unfold cws_after_clear
  split
  next e s1 heq =>
    have hq := cws_textures_go_quiet env s.memory.textures 0 s
    rw [heq] at hq
    exact hq
  next s1 heq =>
    have hq := cws_textures_go_quiet env s.memory.textures 0 s
    rw [heq] at hq
    exact hq
  next j s1 heq =>
    have hq := cws_textures_go_quiet env s.memory.textures 0 s
    rw [heq] at hq
    obtain ⟨aqp, at1, asa, afs, arf, ars⟩ := hq
    have combine : ∀ s2 : Renderer,
        QuietPres s1 s2 → s2.memory.textures = s1.memory.textures →
        s2.memory.sample = s1.memory.sample →
        s2.memory.flush_staging = s1.memory.flush_staging →
        s2.memory.release_fence = s1.memory.release_fence →
        s2.memory.release_syncfile = s1.memory.release_syncfile →
        QuietPres s s2 ∧ s2.memory.textures = s.memory.textures ∧
        s2.memory.sample = s.memory.sample ∧
        s2.memory.flush_staging = s.memory.flush_staging ∧
        s2.memory.release_fence = s.memory.release_fence ∧
        s2.memory.release_syncfile = s.memory.release_syncfile :=
      fun s2 hqp ht hsa hfs hrf hrs =>
        ⟨quietPres_trans aqp hqp, ht.trans at1, hsa.trans asa,
          hfs.trans afs, hrf.trans arf, hrs.trans ars⟩
    split
    next e2 s2 heq2 =>
      have hq2 := cws_image_sems_quiet env DMA_BUF_SYNC_WRITE j
        (getImage s1 fbId) s1
      rw [heq2] at hq2
      exact combine s2 hq2.1 hq2.2.1 hq2.2.2.1 hq2.2.2.2.1 hq2.2.2.2.2.1
        hq2.2.2.2.2.2
    next s2 heq2 =>
      have hq2 := cws_image_sems_quiet env DMA_BUF_SYNC_WRITE j
        (getImage s1 fbId) s1
      rw [heq2] at hq2
      exact combine s2 hq2.1 hq2.2.1 hq2.2.2.1 hq2.2.2.2.1 hq2.2.2.2.2.1
        hq2.2.2.2.2.2
    next k s2 heq2 =>
      have hq2 := cws_image_sems_quiet env DMA_BUF_SYNC_WRITE j
        (getImage s1 fbId) s1
      rw [heq2] at hq2
      exact combine s2 hq2.1 hq2.2.1 hq2.2.2.1 hq2.2.2.2.1 hq2.2.2.2.2.1
        hq2.2.2.2.2.2

theorem create_wait_semaphores_quiet (env : Env) (s : Renderer) (fbId : Nat) :
    QuietPres s (create_wait_semaphores env s fbId).2 ∧
    (create_wait_semaphores env s fbId).2.memory.textures =
      s.memory.textures ∧
    (create_wait_semaphores env s fbId).2.memory.sample = s.memory.sample ∧
    (create_wait_semaphores env s fbId).2.memory.flush_staging =
      s.memory.flush_staging ∧
    (create_wait_semaphores env s fbId).2.memory.release_fence =
      s.memory.release_fence ∧
    (create_wait_semaphores env s fbId).2.memory.release_syncfile =
      s.memory.release_syncfile := by
  unfold create_wait_semaphores
  obtain ⟨⟨qa, qb, qc, qd, qe⟩, ht, hsa, hfs, hrf, hrs⟩ :=
    cws_after_clear_quiet env
      { s with memory := { s.memory with wait_semaphore_infos := [] } } fbId
  exact ⟨⟨by simpa using qa, by simpa using qb, by simpa using qc,
    by simpa using qd, by simpa using qe⟩, by simpa using ht,
    by simpa using hsa, by simpa using hfs, by simpa using hrf,
    by simpa using hrs⟩

theorem submit_quiet (env : Env) (s : Renderer) :
    QuietPres s (submit env s).2 ∧
    (submit env s).2.memory.textures = s.memory.textures ∧
    (submit env s).2.memory.sample = s.memory.sample ∧
    (submit env s).2.memory.flush_staging = s.memory.flush_staging ∧
    (submit env s).2.memory.wait_semaphores = s.memory.wait_semaphores := by
  unfold submit
  split
  · split
    · split <;> simp [QuietPres]
    · simp [QuietPres]
  · simp [QuietPres]

theorem submit_ok_memory (env : Env) (s : Renderer) (s1 : Renderer)
    (h : submit env s = (.ok (), s1)) :
    s1.memory.release_fence.isSome ∧
    (s1.memory.release_syncfile.isSome ↔ env.exportFenceOk = true) := by
  revert h
  unfold submit
  split
  · split
    · split <;> intro h <;> cases h <;> simp_all
    · intro h; cases h
  · intro h; cases h

theorem import_release_semaphore_quiet (env : Env) (s : Renderer)
    (fbId : Nat) :
    QuietPres s (import_release_semaphore env s fbId) ∧
    (import_release_semaphore env s fbId).memory = s.memory := by
  unfold import_release_semaphore
  cases s.memory.release_syncfile <;> simp [QuietPres]

theorem store_go_state (l : List Nat) : ∀ s : Renderer,
    (store_go s l).2.deviceH = s.deviceH ∧
    (store_go s l).2.command_buffers = s.command_buffers ∧
    (store_go s l).2.wait_semaphores = s.wait_semaphores ∧
    (store_go s l).2.total_buffers = s.total_buffers ∧
    (store_go s l).2.memory = s.memory ∧
    (store_go s l).2.pending_frames = s.pending_frames ∧
    (store_go s l).2.last_point = s.last_point ∧
    (store_go s l).2.fresh = s.fresh ∧
    (store_go s l).2.trace = s.trace := by
  induction l with
  | nil => intro s; simp [store_go]
  | cons id rest ih =>
    intro s
    cases hty : (getImage s id).ty with
    | dmaBuf buf => simp [store_go, hty]
    | internal shm =>
      simp only [store_go, hty]
      obtain ⟨ia, ib, ic, id', ie, if', ig, ih', ii⟩ :=
        ih (updateImage s id clearFlushed)
      exact ⟨by simpa [updateImage] using ia, by simpa [updateImage] using ib,
        by simpa [updateImage] using ic, by simpa [updateImage] using id',
        by simpa [updateImage] using ie, by simpa [updateImage] using if',
        by simpa [updateImage] using ig, by simpa [updateImage] using ih',
        by simpa [updateImage] using ii⟩

theorem store_layouts_state (s : Renderer) (fbId : Nat) :
    (store_layouts s fbId).2.deviceH = s.deviceH ∧
    (store_layouts s fbId).2.command_buffers = s.command_buffers ∧
    (store_layouts s fbId).2.wait_semaphores = s.wait_semaphores ∧
    (store_layouts s fbId).2.total_buffers = s.total_buffers ∧
    (store_layouts s fbId).2.memory = s.memory ∧
    (store_layouts s fbId).2.pending_frames = s.pending_frames ∧
    (store_layouts s fbId).2.last_point = s.last_point ∧
    (store_layouts s fbId).2.fresh = s.fresh ∧
    (store_layouts s fbId).2.trace = s.trace := by
  unfold store_layouts
  obtain ⟨ia, ib, ic, id', ie, if', ig, ih', ii⟩ :=
    store_go_state
      (updateImage s fbId fun img => { img with is_undefined := false }).memory.flush
      (updateImage s fbId fun img => { img with is_undefined := false })
  exact ⟨by simpa [updateImage] using ia, by simpa [updateImage] using ib,
    by simpa [updateImage] using ic, by simpa [updateImage] using id',
    by simpa [updateImage] using ie, by simpa [updateImage] using if',
    by simpa [updateImage] using ig, by simpa [updateImage] using ih',
    by simpa [updateImage] using ii⟩

theorem into_vk_ok {s : Renderer} {t : GfxTexture} {id : Nat}
    {img : VulkanImage} (h : into_vk s t = .ok (id, img)) :
    t = .vulkan id ∧ lookupImage s id = some img ∧ img.deviceH = s.deviceH := by
  cases t with
  | foreign => simp [into_vk] at h
  | vulkan i =>
    simp only [into_vk] at h
    cases hlk : lookupImage s i with
    | none => rw [hlk] at h; cases h
    | some im =>
      rw [hlk] at h
      simp only [] at h
      by_cases hdev : im.deviceH = s.deviceH
      · rw [if_pos hdev] at h
        cases h
        exact ⟨rfl, hlk, hdev⟩
      · rw [if_neg hdev] at h
        cases h

theorem pendingShmAt_mem (s : Renderer) (m : Memory) :
    pendingShmAt { s with memory := m } = pendingShmAt s := rfl

theorem isDmaAt_mem (s : Renderer) (m : Memory) :
    isDmaAt { s with memory := m } = isDmaAt s := rfl

theorem pendingShmAt_lookup {s : Renderer} {id : Nat} {img : VulkanImage}
    (hlk : lookupImage s id = some img) :
    pendingShmAt s id = (imgToFlush img).isSome := by
  cases hty : img.ty <;> simp [pendingShmAt, hlk, hty, imgToFlush]

theorem collectClassify_fields (m : Memory) (id : Nat) (img : VulkanImage) :
    (collectClassify m id img).textures = m.textures ++ [id] ∧
    (collectClassify m id img).flush =
      m.flush ++ (if (imgToFlush img).isSome then [id] else []) ∧
    (collectClassify m id img).sample =
      m.sample ++
        (match img.ty with | .dmaBuf _ => [id] | .internal _ => []) := by
  cases hty : img.ty with
  | dmaBuf buf => simp [collectClassify, hty, imgToFlush]
  | internal shm =>
    by_cases htf : shm.to_flush.isSome <;>
      simp [collectClassify, hty, imgToFlush, htf]

theorem collect_go_ok (opts : List GfxApiOpt) : ∀ (s s' : Renderer),
    collect_go s opts = (.ok (), s') →
    s'.memory.flush =
      s.memory.flush ++ (opTexIds opts).filter (fun id => pendingShmAt s id) ∧
    s'.memory.sample =
      s.memory.sample ++ (opTexIds opts).filter (fun id => isDmaAt s id) ∧
    s'.memory.textures = s.memory.textures ++ opTexIds opts := by
  induction opts with
  | nil =>
    intro s s' h
    simp only [collect_go] at h
    cases h
    simp [opTexIds]
  | cons op rest ih =>
    intro s s' h
    cases op with
    | sync =>
      simp only [collect_go] at h
      simpa [opTexIds, texIdOf] using ih s s' h
    | fillRect =>
      simp only [collect_go] at h
      simpa [opTexIds, texIdOf] using ih s s' h
    | copyTexture t =>
      simp only [collect_go] at h
      cases hiv : into_vk s t with
      | aborted => rw [hiv] at h; cases h
      | err e => rw [hiv] at h; cases h
      | ok v =>
        rcases v with ⟨id, img⟩
        rw [hiv] at h
        obtain ⟨ht, hlk, _⟩ := into_vk_ok hiv
        subst ht
        have h' : collect_go
            { s with memory := collectClassify s.memory id img } rest =
            (.ok (), s') := h
        obtain ⟨f1, f2, f3⟩ := ih _ _ h'
        obtain ⟨ct, cf, cs⟩ := collectClassify_fields s.memory id img
        have hpend := pendingShmAt_lookup hlk
        have hids : opTexIds (GfxApiOpt.copyTexture (GfxTexture.vulkan id) :: rest) =
            id :: opTexIds rest := by
          simp [opTexIds, texIdOf]
        refine ⟨?_, ?_, ?_⟩
        · rw [f1, pendingShmAt_mem, hids]
          simp only [List.filter_cons, hpend]
          by_cases hb : (imgToFlush img).isSome <;>
            simp [cf, hb, List.append_assoc]
        · rw [f2, isDmaAt_mem, hids]
          simp only [List.filter_cons]
          cases hty : img.ty with
          | dmaBuf buf =>
            have hdd : isDmaAt s id = true := by simp [isDmaAt, hlk, hty]
            simp [cs, hty, hdd, List.append_assoc]
          | internal shm =>
            have hdd : isDmaAt s id = false := by simp [isDmaAt, hlk, hty]
            simp [cs, hty, hdd, List.append_assoc]
        · rw [f3, hids]
          simp [ct, List.append_assoc]

theorem collect_memory_ok {s s' : Renderer} {opts : List GfxApiOpt}
    (h : collect_memory s opts = (.ok (), s')) :
    s'.deviceH = s.deviceH ∧ s'.images = s.images ∧
    s'.pending_frames = s.pending_frames ∧ s'.last_point = s.last_point ∧
    s'.memory.flush = (opTexIds opts).filter (fun id => pendingShmAt s id) ∧
    s'.memory.textures = s.memory.textures ++ opTexIds opts := by
  have hq := collect_memory_quiet s opts
  rw [h] at hq
  unfold collect_memory at h
  obtain ⟨f1, _, f3⟩ := collect_go_ok opts _ _ h
  refine ⟨hq.1, hq.2.1, hq.2.2.1, hq.2.2.2, ?_, ?_⟩
  · rw [f1]; rfl
  · rw [f3]

theorem pendingShmAt_eq_of_images {s s' : Renderer}
    (h : s'.images = s.images) (id : Nat) :
    pendingShmAt s' id = pendingShmAt s id := by
  simp [pendingShmAt, lookupImage, h]

theorem store_go_no_err (l : List Nat) : ∀ (s : Renderer) (e : VulkanError),
    (store_go s l).1 ≠ .err e := by
  induction l with
  | nil => intro s e; simp [store_go]
  | cons id rest ih =>
    intro s e
    cases hty : (getImage s id).ty with
    | dmaBuf buf => simp [store_go, hty]
    | internal shm =>
      simp only [store_go, hty]
      exact ih _ e

theorem store_layouts_no_err (s : Renderer) (fbId : Nat) (e : VulkanError) :
    (store_layouts s fbId).1 ≠ .err e := by
  unfold store_layouts
  exact store_go_no_err _ _ e

/-- Combined preservation through the recorded-command block (stages 4 to 8:
barriers, shm copies, dynamic rendering begin). -/
theorem mid_block_quiet (s : Renderer) (fbId : Nat) (clear : Option Color) :
    QuietPres s (begin_rendering (secondary_barriers (copy_shm_to_image
      (initial_barriers s fbId))) clear) := by
  have h1 := (initial_barriers_quiet s fbId).1
  have h2 := (copy_shm_to_image_quiet (initial_barriers s fbId)).1
  have h3 := (secondary_barriers_quiet
    (copy_shm_to_image (initial_barriers s fbId))).1
  have h4 := (begin_rendering_quiet
    (secondary_barriers (copy_shm_to_image (initial_barriers s fbId))) clear).1
  exact quietPres_trans (quietPres_trans (quietPres_trans h1 h2) h3) h4

/-- Case split over a full `try_execute` run: an error leaves the image
store, the pending map and `last_point` untouched; a panic leaves the
pending map and `last_point` untouched; a success goes through
`store_layouts` on a state whose `flush` list is exactly the pending-upload
textures of the ops and ends in `create_pending_frame`. -/
theorem try_execute_master (env : Env) (s : Renderer) (fbId : Nat)
    (opts : List GfxApiOpt) (clear : Option Color) :
    (∃ e s1, try_execute env s fbId opts clear = (.err e, s1) ∧
      s1.images = s.images ∧ s1.pending_frames = s.pending_frames ∧
      s1.last_point = s.last_point) ∨
    (∃ s1, try_execute env s fbId opts clear = (.aborted, s1) ∧
      s1.pending_frames = s.pending_frames ∧ s1.last_point = s.last_point) ∨
    (∃ buf sm st,
      try_execute env s fbId opts clear = (.ok (), create_pending_frame st buf) ∧
      sm.deviceH = s.deviceH ∧ sm.images = s.images ∧
      sm.pending_frames = s.pending_frames ∧ sm.last_point = s.last_point ∧
      sm.memory.flush = (opTexIds opts).filter (fun id => pendingShmAt s id) ∧
      store_layouts sm fbId = (.ok (), st)) := by
  unfold try_execute
  cases h1 : allocate_command_buffer env s with
  | mk r1 s1 =>
  have q1 := alloc_cb_quiet env s
  rw [h1] at q1
  obtain ⟨⟨d1, i1, p1, l1, _⟩, m1⟩ := q1
  cases r1 with
  | err e => exact Or.inl ⟨e, s1, by simp only [rbind], i1, p1, l1⟩
  | aborted => exact Or.inr (Or.inl ⟨s1, by simp only [rbind], p1, l1⟩)
  | ok buf =>
  simp only [rbind]
  cases h2 : collect_memory s1 opts with
  | mk r2 s2 =>
  have q2 := collect_memory_quiet s1 opts
  rw [h2] at q2
  obtain ⟨d2, i2, p2, l2⟩ := q2
  cases r2 with
  | err e =>
    exact Or.inl ⟨e, s2, by simp only [rbind], i2.trans i1, p2.trans p1,
      l2.trans l1⟩
  | aborted =>
    exact Or.inr (Or.inl ⟨s2, by simp only [rbind], p2.trans p1, l2.trans l1⟩)
  | ok u2 =>
  cases u2
  obtain ⟨_, _, _, _, c5, _⟩ := collect_memory_ok h2
  have c5' : s2.memory.flush =
      (opTexIds opts).filter (fun id => pendingShmAt s id) := by
    rw [c5, List.filter_congr (fun a _ => pendingShmAt_eq_of_images i1 a)]
  simp only [rbind]
  by_cases hb : env.beginOk
  case neg =>
    have hb3 : begin_command_buffer env s2 =
        (.err .BeginCommandBuffer, s2) := by
      simp [begin_command_buffer, hb]
    rw [hb3]
    exact Or.inl ⟨.BeginCommandBuffer, s2, by simp only [rbind],
      i2.trans i1, p2.trans p1, l2.trans l1⟩
  case pos =>
  have hb3 : begin_command_buffer env s2 = (.ok (), s2) := by
    simp [begin_command_buffer, hb]
  rw [hb3]
  simp only [rbind]
  cases h4 : write_shm_staging_buffers env s2 with
  | mk r4 s4 =>
  have q4 := write_shm_staging_buffers_quiet env s2
  rw [h4] at q4
  obtain ⟨⟨d4, i4, p4, l4, f4⟩, _, _⟩ := q4
  cases r4 with
  | err e =>
    exact Or.inl ⟨e, s4, by simp only [rbind], (i4.trans i2).trans i1,
      (p4.trans p2).trans p1, (l4.trans l2).trans l1⟩
  | aborted =>
    exact Or.inr (Or.inl ⟨s4, by simp only [rbind], (p4.trans p2).trans p1,
      (l4.trans l2).trans l1⟩)
  | ok u4 =>
  cases u4
  simp only [rbind]
  obtain ⟨dM, iM, pM, lM, fM⟩ := mid_block_quiet s4 fbId clear
  cases h5 : record_draws (begin_rendering (secondary_barriers
      (copy_shm_to_image (initial_barriers s4 fbId))) clear) opts with
  | mk r5 s5 =>
  have q5 := record_draws_quiet opts (begin_rendering (secondary_barriers
    (copy_shm_to_image (initial_barriers s4 fbId))) clear)
  rw [h5] at q5
  obtain ⟨⟨d5, i5, p5, l5, f5⟩, _⟩ := q5
  have iA : s5.images = s.images :=
    (((i5.trans iM).trans i4).trans i2).trans i1
  have pA : s5.pending_frames = s.pending_frames :=
    (((p5.trans pM).trans p4).trans p2).trans p1
  have lA : s5.last_point = s.last_point :=
    (((l5.trans lM).trans l4).trans l2).trans l1
  have fA : s5.memory.flush =
      (opTexIds opts).filter (fun id => pendingShmAt s id) :=
    ((f5.trans fM).trans f4).trans c5'
  have dA : s5.deviceH = s.deviceH := ((d5.trans dM).trans d4).trans (d2.trans d1)
  cases r5 with
  | err e => exact Or.inl ⟨e, s5, by simp only [rbind], iA, pA, lA⟩
  | aborted => exact Or.inr (Or.inl ⟨s5, by simp only [rbind], pA, lA⟩)
  | ok u5 =>
  cases u5
  simp only [rbind]
  obtain ⟨⟨dF, iF, pF, lF, fF⟩, _, _, _⟩ := final_barriers_quiet s5 fbId
  have iB : (final_barriers s5 fbId).images = s.images := iF.trans iA
  have pB : (final_barriers s5 fbId).pending_frames = s.pending_frames :=
    pF.trans pA
  have lB : (final_barriers s5 fbId).last_point = s.last_point := lF.trans lA
  have fB : (final_barriers s5 fbId).memory.flush =
      (opTexIds opts).filter (fun id => pendingShmAt s id) := fF.trans fA
  have dB : (final_barriers s5 fbId).deviceH = s.deviceH := dF.trans dA
  by_cases he : env.endOk
  case neg =>
    have he6 : end_command_buffer env (final_barriers s5 fbId) =
        (.err .EndCommandBuffer, final_barriers s5 fbId) := by
      simp [end_command_buffer, he]
    rw [he6]
    exact Or.inl ⟨.EndCommandBuffer, final_barriers s5 fbId,
      by simp only [rbind], iB, pB, lB⟩
  case pos =>
  have he6 : end_command_buffer env (final_barriers s5 fbId) =
      (.ok (), final_barriers s5 fbId) := by
    simp [end_command_buffer, he]
  rw [he6]
  simp only [rbind]
  cases h7 : create_wait_semaphores env (final_barriers s5 fbId) fbId with
  | mk r7 s7 =>
  have q7 := create_wait_semaphores_quiet env (final_barriers s5 fbId) fbId
  rw [h7] at q7
  obtain ⟨⟨d7, i7, p7, l7, f7⟩, _, _, _, _, _⟩ := q7
  have iC : s7.images = s.images := i7.trans iB
  have pC : s7.pending_frames = s.pending_frames := p7.trans pB
  have lC : s7.last_point = s.last_point := l7.trans lB
  have fC : s7.memory.flush =
      (opTexIds opts).filter (fun id => pendingShmAt s id) := f7.trans fB
  have dC : s7.deviceH = s.deviceH := d7.trans dB
  cases r7 with
  | err e => exact Or.inl ⟨e, s7, by simp only [rbind], iC, pC, lC⟩
  | aborted => exact Or.inr (Or.inl ⟨s7, by simp only [rbind], pC, lC⟩)
  | ok u7 =>
  cases u7
  simp only [rbind]
  cases h8 : submit env s7 with
  | mk r8 s8 =>
  have q8 := submit_quiet env s7
  rw [h8] at q8
  obtain ⟨⟨d8, i8, p8, l8, f8⟩, _, _, _, _⟩ := q8
  have iD : s8.images = s.images := i8.trans iC
  have pD : s8.pending_frames = s.pending_frames := p8.trans pC
  have lD : s8.last_point = s.last_point := l8.trans lC
  have fD : s8.memory.flush =
      (opTexIds opts).filter (fun id => pendingShmAt s id) := f8.trans fC
  have dD : s8.deviceH = s.deviceH := d8.trans dC
  cases r8 with
  | err e => exact Or.inl ⟨e, s8, by simp only [rbind], iD, pD, lD⟩
  | aborted => exact Or.inr (Or.inl ⟨s8, by simp only [rbind], pD, lD⟩)
  | ok u8 =>
  cases u8
  simp only [rbind]
  obtain ⟨⟨d9, i9, p9, l9, f9⟩, _⟩ :=
    import_release_semaphore_quiet env s8 fbId
  have iE : (import_release_semaphore env s8 fbId).images = s.images :=
    i9.trans iD
  have pE : (import_release_semaphore env s8 fbId).pending_frames =
      s.pending_frames := p9.trans pD
  have lE : (import_release_semaphore env s8 fbId).last_point = s.last_point :=
    l9.trans lD
  have fE : (import_release_semaphore env s8 fbId).memory.flush =
      (opTexIds opts).filter (fun id => pendingShmAt s id) := f9.trans fD
  have dE : (import_release_semaphore env s8 fbId).deviceH = s.deviceH :=
    d9.trans dD
  cases h10 : store_layouts (import_release_semaphore env s8 fbId) fbId with
  | mk r10 s10 =>
  have q10 := store_layouts_state (import_release_semaphore env s8 fbId) fbId
  rw [h10] at q10
  obtain ⟨_, _, _, _, _, pS, lS, _, _⟩ := q10
  cases r10 with
  | err e =>
    exact absurd (by rw [h10] : (store_layouts
      (import_release_semaphore env s8 fbId) fbId).1 = .err e)
      (store_layouts_no_err _ fbId e)
  | aborted =>
    exact Or.inr (Or.inl ⟨s10, by simp only [rbind], pS.trans pE, lS.trans lE⟩)
  | ok u10 =>
  cases u10
  exact Or.inr (Or.inr ⟨buf, import_release_semaphore env s8 fbId, s10,
    by simp only [rbind], dE, iE, pE, lE, fE, h10⟩)

/-! ### Characterization of `store_layouts` on success -/

theorem lookupImage_updateImage_isSome (s : Renderer) (id : Nat)
    (f : VulkanImage → VulkanImage) (q : Nat) :
    (lookupImage (updateImage s id f) q).isSome = (lookupImage s q).isSome := by
  by_cases h : q = id
  · subst h
    rw [lookupImage_updateImage_self]
    cases lookupImage s q <;> simp
  · rw [lookupImage_updateImage_ne _ _ _ _ h]

theorem store_go_partial_lookup (l : List Nat) : ∀ (s : Renderer) (q : Nat),
    q ∉ l → lookupImage (store_go s l).2 q = lookupImage s q := by
  induction l with
  | nil => intro s q _; simp [store_go]
  | cons id rest ih =>
    intro s q hq
    have hqid : q ≠ id := fun h => hq (h ▸ List.mem_cons_self id rest)
    have hqrest : q ∉ rest := fun h => hq (List.mem_cons_of_mem id h)
    cases hty : (getImage s id).ty with
    | dmaBuf buf => simp [store_go, hty]
    | internal shm =>
      simp only [store_go, hty]
      rw [ih _ q hqrest, lookupImage_updateImage_ne _ _ _ _ hqid]

theorem clearFlushed_internal {img : VulkanImage} {shm : ShmImage}
    (h : img.ty = .internal shm) :
    (clearFlushed img).is_undefined = false ∧
    imgToFlush (clearFlushed img) = none := by
  simp [clearFlushed, h, imgToFlush]

theorem store_go_ok_clears (l : List Nat) : ∀ (s st : Renderer),
    store_go s l = (.ok (), st) →
    ∀ id ∈ l, (lookupImage s id).isSome →
    ∃ img, lookupImage st id = some img ∧ img.is_undefined = false ∧
      imgToFlush img = none := by
  induction l with
  | nil => intro s st h id hmem; cases hmem
  | cons hd rest ih =>
    intro s st h id hmem hsome
    cases hty : (getImage s hd).ty with
    | dmaBuf buf =>
      rw [store_go, hty] at h
      cases h
    | internal shm =>
      rw [store_go, hty] at h
      have h' : store_go (updateImage s hd clearFlushed) rest =
          (.ok (), st) := h
      rcases List.mem_cons.mp hmem with heq | hmemr
      · subst heq
        by_cases hrest : id ∈ rest
        · exact ih _ _ h' id hrest
            (by rw [lookupImage_updateImage_isSome]; exact hsome)
        · have hst := store_go_partial_lookup rest
            (updateImage s id clearFlushed) id hrest
          rw [h'] at hst
          simp only [] at hst
          rw [lookupImage_updateImage_self] at hst
          cases hlk : lookupImage s id with
          | none => rw [hlk] at hsome; cases hsome
          | some img0 =>
            rw [hlk] at hst
            have himg0 : getImage s id = img0 := by
              simp [getImage, hlk]
            rw [himg0] at hty
            refine ⟨clearFlushed img0, by simpa using hst, ?_, ?_⟩
            · exact (clearFlushed_internal hty).1
            · exact (clearFlushed_internal hty).2
      · exact ih _ _ h' id hmemr
          (by rw [lookupImage_updateImage_isSome]; exact hsome)

theorem store_layouts_ok_char {s st : Renderer} {fbId : Nat}
    (h : store_layouts s fbId = (.ok (), st)) :
    (∀ q, q ≠ fbId → q ∉ s.memory.flush →
      lookupImage st q = lookupImage s q) ∧
    (∀ fb0, lookupImage s fbId = some fb0 →
      ∃ fb1, lookupImage st fbId = some fb1 ∧ fb1.is_undefined = false) ∧
    (∀ id ∈ s.memory.flush, (lookupImage s id).isSome →
      ∃ img, lookupImage st id = some img ∧ img.is_undefined = false ∧
        imgToFlush img = none) := by
  have h' : store_go
      (updateImage s fbId fun img => { img with is_undefined := false })
      s.memory.flush = (.ok (), st) := h
  refine ⟨?_, ?_, ?_⟩
  · intro q hqfb hqfl
    have h1 := store_go_partial_lookup s.memory.flush
      (updateImage s fbId fun img => { img with is_undefined := false }) q hqfl
    rw [h'] at h1
    simp only [] at h1
    rw [h1, lookupImage_updateImage_ne _ _ _ _ hqfb]
  · intro fb0 hfb
    by_cases hmem : fbId ∈ s.memory.flush
    · obtain ⟨img, hlk, hu, _⟩ := store_go_ok_clears s.memory.flush _ _ h'
        fbId hmem (by
          rw [lookupImage_updateImage_isSome]
          simp [hfb])
      exact ⟨img, hlk, hu⟩
    · have h1 := store_go_partial_lookup s.memory.flush
        (updateImage s fbId fun img => { img with is_undefined := false })
        fbId hmem
      rw [h'] at h1
      simp only [] at h1
      rw [lookupImage_updateImage_self, hfb] at h1
      exact ⟨_, h1, rfl⟩
  · intro id hmem hsome
    exact store_go_ok_clears s.memory.flush _ _ h' id hmem (by
      rw [lookupImage_updateImage_isSome]; exact hsome)

/-- The state effect of `create_pending_frame`. -/
theorem create_pending_frame_char (s : Renderer) (buf : Nat) :
    (create_pending_frame s buf).last_point = s.last_point + 1 ∧
    (create_pending_frame s buf).pending_frames =
      (s.last_point + 1,
        { point := s.last_point + 1, cmd := some buf,
          textures := s.memory.textures, staging := s.memory.flush_staging,
          wait_semaphores := s.memory.wait_semaphores,
          release_fence := s.memory.release_fence,
          syncfile := s.memory.release_syncfile }) :: s.pending_frames ∧
    (create_pending_frame s buf).images = s.images ∧
    (create_pending_frame s buf).deviceH = s.deviceH := by
  simp [create_pending_frame]

theorem lookupImage_eq_of_images {s s' : Renderer}
    (h : s'.images = s.images) (id : Nat) :
    lookupImage s' id = lookupImage s id := by
  simp [lookupImage, h]

/-- Projections of the `execute` wrapper onto the underlying `try_execute`
run: the result and every non-scratch state component are unchanged by the
final scratch clearing. -/
theorem execute_proj (env : Env) (s : Renderer) (fbId : Nat)
    (opts : List GfxApiOpt) (clear : Option Color) :
    (execute env s fbId opts clear).1 =
      (try_execute env s fbId opts clear).1 ∧
    (execute env s fbId opts clear).2.pending_frames =
      (try_execute env s fbId opts clear).2.pending_frames ∧
    (execute env s fbId opts clear).2.last_point =
      (try_execute env s fbId opts clear).2.last_point ∧
    (execute env s fbId opts clear).2.images =
      (try_execute env s fbId opts clear).2.images ∧
    (execute env s fbId opts clear).2.deviceH =
      (try_execute env s fbId opts clear).2.deviceH := by
  simp [execute]

theorem goodState_congr {s s' : Renderer}
    (hp : s'.pending_frames = s.pending_frames)
    (hl : s'.last_point = s.last_point) (h : goodState s) : goodState s' := by
  simp only [goodState, hp, hl]
  exact h

/-! ### Claim theorems -/

/-- C1: every `execute` call that returns success inserts exactly one new
entry into `pending_frames`, keyed by the pre-call `last_point + 1` (also
stored as the frame's own `point`); a non-success run leaves the pending map
and `last_point` untouched; under the key invariant the new key was never
used before, and the invariant is preserved, so keys are strictly
increasing across successive frames and never reused. -/
theorem execute_pending_frame_accounting (env : Env) (s : Renderer)
    (fbId : Nat) (opts : List GfxApiOpt) (clear : Option Color)
    (r : RRes Unit) (s' : Renderer) (hgood : goodState s)
    (h : execute env s fbId opts clear = (r, s')) :
    (r = .ok () →
      s'.last_point = s.last_point + 1 ∧
      (∃ f, s'.pending_frames = (s.last_point + 1, f) :: s.pending_frames ∧
        f.point = s.last_point + 1) ∧
      s'.pending_frames.length = s.pending_frames.length + 1 ∧
      (s.last_point + 1) ∉ s.pending_frames.map Prod.fst) ∧
    (r ≠ .ok () →
      s'.pending_frames = s.pending_frames ∧
      s'.last_point = s.last_point) ∧
    goodState s' := by
  obtain ⟨er, ep, el, _, _⟩ := execute_proj env s fbId opts clear
  rw [h] at er ep el
  simp only [] at er ep el
  rcases try_execute_master env s fbId opts clear with
    ⟨e, s1, hT, hi, hp, hl⟩ | ⟨s1, hT, hp, hl⟩ |
    ⟨buf, sm, st, hT, hd, hi, hp, hl, hf, hst⟩
  · rw [hT] at er ep el
    simp only [] at er ep el
    have hr : r = .err e := er
    subst hr
    refine ⟨?_, ?_, ?_⟩
    · intro hok
      cases hok
    · intro _
      exact ⟨ep.trans hp, el.trans hl⟩
    · exact goodState_congr (ep.trans hp) (el.trans hl) hgood
  · rw [hT] at er ep el
    simp only [] at er ep el
    have hr : r = .aborted := er
    subst hr
    refine ⟨?_, ?_, ?_⟩
    · intro hok
      cases hok
    · intro _
      exact ⟨ep.trans hp, el.trans hl⟩
    · exact goodState_congr (ep.trans hp) (el.trans hl) hgood
  · rw [hT] at er ep el
    simp only [] at er ep el
    have hr : r = .ok () := er
    subst hr
    obtain ⟨_, _, _, _, _, pS, lS, _, _⟩ := store_layouts_state sm fbId
    rw [hst] at pS lS
    simp only [] at pS lS
    obtain ⟨cl, cp, _, _⟩ := create_pending_frame_char st buf
    have hlast : s'.last_point = s.last_point + 1 := by
      rw [el, cl, lS, hl]
    have hpend : s'.pending_frames =
        (s.last_point + 1,
          { point := s.last_point + 1, cmd := some buf,
            textures := st.memory.textures,
            staging := st.memory.flush_staging,
            wait_semaphores := st.memory.wait_semaphores,
            release_fence := st.memory.release_fence,
            syncfile := st.memory.release_syncfile }) :: s.pending_frames := by
      rw [ep, cp, pS, hp, lS, hl]
    have hfreshkey : (s.last_point + 1) ∉ s.pending_frames.map Prod.fst := by
      intro hmem
      have := hgood _ hmem
      omega
    refine ⟨fun _ => ⟨hlast, ⟨_, hpend, rfl⟩, by rw [hpend]; simp, hfreshkey⟩,
      fun hne => absurd rfl hne, ?_⟩
    intro k hk
    rw [hpend] at hk
    simp only [List.map_cons, List.mem_cons] at hk
    rcases hk with hk | hk
    · rw [hlast, hk]
    · have := hgood k hk
      rw [hlast]
      omega

/-- C1 witness: a concrete successful frame on the fixture state. -/
theorem execute_pending_frame_accounting_witness :
    goodState testS ∧
    (execute okEnv testS 2 testOps none).2.last_point = testS.last_point + 1 :=
  ⟨by decide,
    ((execute_pending_frame_accounting okEnv testS 2 testOps none _ _
      (by decide) rfl).1 (by decide)).1⟩

/-- C2: whatever `execute` returns, the per-frame scratch fields `flush`,
`textures`, `flush_staging`, `sample`, `wait_semaphores`, `release_fence`
and `release_syncfile` are empty or `none` on return, so no partially built
frame state survives into the next call. -/
theorem execute_clears_scratch (env : Env) (s : Renderer) (fbId : Nat)
    (opts : List GfxApiOpt) (clear : Option Color) :
    (execute env s fbId opts clear).2.memory.flush = [] ∧
    (execute env s fbId opts clear).2.memory.textures = [] ∧
    (execute env s fbId opts clear).2.memory.flush_staging = [] ∧
    (execute env s fbId opts clear).2.memory.sample = [] ∧
    (execute env s fbId opts clear).2.memory.wait_semaphores = [] ∧
    (execute env s fbId opts clear).2.memory.release_fence = none ∧
    (execute env s fbId opts clear).2.memory.release_syncfile = none := by
  simp [execute]

/-- C5: a successful `execute` clears `is_undefined` on the framebuffer and,
for every shm texture referenced by a `CopyTexture` op that had a pending
upload at frame start, clears `is_undefined` and drops `to_flush`; an
`execute` that returns an error leaves the image store untouched. -/
theorem execute_stores_layouts (env : Env) (s : Renderer) (fbId : Nat)
    (opts : List GfxApiOpt) (clear : Option Color) (r : RRes Unit)
    (s' : Renderer) (fb0 : VulkanImage)
    (hfb : lookupImage s fbId = some fb0)
    (h : execute env s fbId opts clear = (r, s')) :
    (r = .ok () →
      (∃ fb1, lookupImage s' fbId = some fb1 ∧ fb1.is_undefined = false) ∧
      (∀ id, id ∈ opTexIds opts → pendingShmAt s id = true →
        ∃ img, lookupImage s' id = some img ∧ img.is_undefined = false ∧
          imgToFlush img = none)) ∧
    (∀ e, r = .err e → s'.images = s.images) := by
  obtain ⟨er, _, _, ei, _⟩ := execute_proj env s fbId opts clear
  rw [h] at er ei
  simp only [] at er ei
  rcases try_execute_master env s fbId opts clear with
    ⟨e, s1, hT, hi, _, _⟩ | ⟨s1, hT, _, _⟩ |
    ⟨buf, sm, st, hT, hd, hi, hp, hl, hf, hst⟩
  · rw [hT] at er ei
    simp only [] at er ei
    have hr : r = .err e := er
    subst hr
    refine ⟨?_, ?_⟩
    · intro hok
      cases hok
    · intro e' he'
      exact ei.trans hi
  · rw [hT] at er ei
    simp only [] at er ei
    have hr : r = .aborted := er
    subst hr
    refine ⟨?_, ?_⟩
    · intro hok
      cases hok
    · intro e' he'
      cases he'
  · rw [hT] at er ei
    simp only [] at er ei
    have hr : r = .ok () := er
    subst hr
    obtain ⟨hother, hfbpart, hclear⟩ := store_layouts_ok_char hst
    obtain ⟨_, _, cimg, _⟩ := create_pending_frame_char st buf
    have himgs : s'.images = st.images := ei.trans cimg
    have hlu : ∀ q, lookupImage s' q = lookupImage st q :=
      lookupImage_eq_of_images himgs
    have hlusm : ∀ q, lookupImage sm q = lookupImage s q :=
      lookupImage_eq_of_images hi
    refine ⟨fun _ => ⟨?_, ?_⟩, fun e' he' => by cases he'⟩
    · obtain ⟨fb1, hfb1, hu1⟩ := hfbpart fb0 (by rw [hlusm]; exact hfb)
      exact ⟨fb1, by rw [hlu]; exact hfb1, hu1⟩
    · intro id hmem hpend
      have hmemf : id ∈ sm.memory.flush := by
        rw [hf]
        exact List.mem_filter.mpr ⟨hmem, by simpa using hpend⟩
      have hsome : (lookupImage sm id).isSome := by
        rw [hlusm]
        revert hpend
        unfold pendingShmAt
        cases lookupImage s id <;> simp
      obtain ⟨img, hlk, hu, htf⟩ := hclear id hmemf hsome
      exact ⟨img, by rw [hlu]; exact hlk, hu, htf⟩

/-- C5 witness: the concrete frame of the fixture clears the framebuffer's
undefined flag and flushes the pending shm upload. -/
theorem execute_stores_layouts_witness :
    lookupImage testS 2 = some imgFb ∧
    (∃ img, lookupImage (execute okEnv testS 2 testOps none).2 0 = some img ∧
      img.is_undefined = false ∧ imgToFlush img = none) :=
  ⟨by decide,
    ((execute_stores_layouts okEnv testS 2 testOps none _ _ imgFb
      (by decide) rfl).1 (by decide)).2 0 (by decide) (by decide)⟩

/-! ### Lemmas about the release watcher -/

theorem lookup_filter_self (l : List (Nat × PendingFrame)) (k : Nat) :
    (l.filter fun p => p.1 ≠ k).lookup k = none := by
  induction l with
  | nil => rfl
  | cons hd tl ih =>
    rcases hd with ⟨a, b⟩
    rw [List.filter_cons]
    by_cases h : a = k
    · rw [if_neg (by simp [h])]
      exact ih
    · rw [if_pos (by simp [h])]
      have hne : (k == a) = false := by simp [Ne.symm h]
      simp only [List.lookup, hne]
      exact ih

theorem lookup_filter_other (l : List (Nat × PendingFrame)) (k q : Nat)
    (hq : q ≠ k) :
    (l.filter fun p => p.1 ≠ k).lookup q = l.lookup q := by
  induction l with
  | nil => rfl
  | cons hd tl ih =>
    rcases hd with ⟨a, b⟩
    rw [List.filter_cons]
    by_cases h : a = k
    · subst h
      have hne : (q == a) = false := by simp [hq]
      rw [if_neg (by simp)]
      simp only [List.lookup, hne]
      exact ih
    · rw [if_pos (by simp [h])]
      by_cases hqa : q = a
      · subst hqa
        simp [List.lookup]
      · have hne : (q == a) = false := by simp [hqa]
        simp only [List.lookup, hne]
        exact ih

theorem foldl_cons_eq (l : List Nat) : ∀ acc : List Nat,
    l.foldl (fun a x => x :: a) acc = l.reverse ++ acc := by
  induction l with
  | nil => intro acc; simp
  | cons hd tl ih => intro acc; simp [ih]

/-- C3: the release watcher removes exactly its own frame's key from
`pending_frames` (other keys are untouched, so each frame is removed once,
by its own waiter), pushes the frame's command buffer and every
wait-semaphore back onto the renderer's free-list stacks, and invokes
`device_wait_idle` exactly when there was no release sync-file or the
reactor reported an error. -/
theorem await_release_char (reactorOk : Bool) (frame : PendingFrame)
    (s : Renderer) :
    (await_release reactorOk frame s).pending_frames =
      s.pending_frames.filter (fun p => p.1 ≠ frame.point) ∧
    (await_release reactorOk frame s).pending_frames.lookup frame.point =
      none ∧
    (∀ q, q ≠ frame.point →
      (await_release reactorOk frame s).pending_frames.lookup q =
        s.pending_frames.lookup q) ∧
    ((await_release reactorOk frame s).trace =
      s.trace ++ (if frame.syncfile = none ∨ reactorOk = false
        then [.deviceWaitIdle] else [])) ∧
    (∀ b, frame.cmd = some b →
      b ∈ (await_release reactorOk frame s).command_buffers) ∧
    (∀ sem ∈ frame.wait_semaphores,
      sem ∈ (await_release reactorOk frame s).wait_semaphores) := by
  have hfilter : (await_release reactorOk frame s).pending_frames =
      s.pending_frames.filter (fun p => p.1 ≠ frame.point) := by
    unfold await_release block
    cases frame.cmd <;> cases hrel : frame.syncfile.isSome && reactorOk <;> simp
  have htrace : (await_release reactorOk frame s).trace =
      s.trace ++ (if frame.syncfile = none ∨ reactorOk = false
        then [.deviceWaitIdle] else []) := by
    unfold await_release block
    cases hsf : frame.syncfile <;> cases reactorOk <;> cases frame.cmd <;> simp
  have hcmd : ∀ b, frame.cmd = some b →
      b ∈ (await_release reactorOk frame s).command_buffers := by
    intro b hb
    unfold await_release block
    rw [hb]
    cases frame.syncfile.isSome && reactorOk <;> simp
  have hsem : ∀ sem ∈ frame.wait_semaphores,
      sem ∈ (await_release reactorOk frame s).wait_semaphores := by
    intro sem hmem
    unfold await_release block
    cases frame.cmd <;> cases frame.syncfile.isSome && reactorOk <;>
      simp [foldl_cons_eq, hmem]
  refine ⟨hfilter, ?_, ?_, htrace, hcmd, hsem⟩
  · rw [hfilter]
    exact lookup_filter_self _ _
  · intro q hq
    rw [hfilter]
    exact lookup_filter_other _ _ _ hq

/-! ### Trace characterization of the sync-file semaphore stages -/

theorem getImage_eq_of_images {s s' : Renderer}
    (h : s'.images = s.images) (id : Nat) : getImage s' id = getImage s id := by
  simp [getImage, lookupImage, h]

theorem allocate_semaphore_state (env : Env) (i : Nat) (s : Renderer) :
    (allocate_semaphore env i s).2.trace = s.trace ∧
    (allocate_semaphore env i s).2.memory = s.memory ∧
    (allocate_semaphore env i s).2.images = s.images := by
  cases h : s.wait_semaphores with
  | nil =>
    simp only [allocate_semaphore, h]
    split <;> simp
  | cons x rest => simp [allocate_semaphore, h]

theorem cws_plane_sems_ok (env : Env) (flag : Nat)
    (planes : List DmaBufPlane) : ∀ (i : Nat) (s : Renderer) (j : Nat)
    (s' : Renderer), cws_plane_sems env flag i s planes = (.ok j, s') →
    s'.trace = s.trace ++
      planes.map (fun p => .exportSyncFile p.fd flag true) ∧
    ∃ sems : List Nat,
      s'.memory.wait_semaphore_infos = s.memory.wait_semaphore_infos ++
        sems.map (fun x => { semaphore := x, stage_top_of_pipe := true }) ∧
      s'.memory.wait_semaphores = s.memory.wait_semaphores ++ sems ∧
      sems.length = planes.length := by
  induction planes with
  | nil =>
    intro i s j s' h
    simp only [cws_plane_sems] at h
    cases h
    exact ⟨by simp, [], by simp, by simp, rfl⟩
  | cons p rest ih =>
    intro i s j s' h
    simp only [cws_plane_sems] at h
    by_cases hexp : env.exportSyncOk i
    case neg =>
      rw [if_neg hexp] at h
      cases h
    case pos =>
      rw [hexp] at h
      rw [if_pos rfl] at h
      cases hca : allocate_semaphore env i
          { s with trace := s.trace ++ [.exportSyncFile p.fd flag true] } with
      | mk r1 s1 =>
      rw [hca] at h
      have hstate := allocate_semaphore_state env i
        { s with trace := s.trace ++ [.exportSyncFile p.fd flag true] }
      rw [hca] at hstate
      have htr1 : s1.trace =
          s.trace ++ [Event.exportSyncFile p.fd flag true] := hstate.1
      have hm1 : s1.memory = s.memory := hstate.2.1
      cases r1 with
      | err e => cases h
      | aborted => cases h
      | ok sem =>
        simp only [] at h
        by_cases himp : env.importSemOk i
        case neg =>
          rw [if_neg himp] at h
          cases h
        case pos =>
          rw [if_pos himp] at h
          obtain ⟨ihtr, sems0, ihinfo, ihws, ihlen⟩ := ih (i + 1) _ j s' h
          simp only [] at ihtr ihinfo ihws
          refine ⟨?_, sem :: sems0, ?_, ?_, by simp [ihlen]⟩
          · rw [ihtr, htr1]
            simp
          · rw [ihinfo, hm1]
            simp [List.append_assoc]
          · rw [ihws, hm1]
            simp [List.append_assoc]

theorem cws_image_sems_ok (env : Env) (flag i : Nat) (img : VulkanImage)
    (s : Renderer) (j : Nat) (s' : Renderer)
    (h : cws_image_sems env flag i img s = (.ok j, s')) :
    s'.trace = s.trace ++ exportEventsFor img flag ∧
    ∃ sems : List Nat,
      s'.memory.wait_semaphore_infos = s.memory.wait_semaphore_infos ++
        sems.map (fun x => { semaphore := x, stage_top_of_pipe := true }) ∧
      s'.memory.wait_semaphores = s.memory.wait_semaphores ++ sems ∧
      sems.length = planeCount img := by
  cases hty : img.ty with
  | dmaBuf buf =>
    rw [cws_image_sems, hty] at h
    simpa [exportEventsFor, hty, planeCount] using
      cws_plane_sems_ok env flag buf.planes i s j s' h
  | internal shm =>
    rw [cws_image_sems, hty] at h
    cases h
    exact ⟨by simp [exportEventsFor, hty], [], by simp, by simp,
      by simp [planeCount, hty]⟩

theorem cws_textures_go_ok (env : Env) (T : List Nat) : ∀ (i : Nat)
    (s : Renderer) (j : Nat) (s' : Renderer),
    cws_textures_go env i s T = (.ok j, s') →
    s'.trace = s.trace ++ cwsTexTraceSpec s T ∧
    ∃ sems : List Nat,
      s'.memory.wait_semaphore_infos = s.memory.wait_semaphore_infos ++
        sems.map (fun x => { semaphore := x, stage_top_of_pipe := true }) ∧
      s'.memory.wait_semaphores = s.memory.wait_semaphores ++ sems ∧
      sems.length = totalPlanesTex s T := by
  induction T with
  | nil =>
    intro i s j s' h
    simp only [cws_textures_go] at h
    cases h
    exact ⟨by simp [cwsTexTraceSpec], [], by simp, by simp,
      by simp [totalPlanesTex]⟩
  | cons id rest ih =>
    intro i s j s' h
    simp only [cws_textures_go] at h
    cases hci : cws_image_sems env DMA_BUF_SYNC_READ i (getImage s id) s with
    | mk r1 s1 =>
    rw [hci] at h
    have hquiet := cws_image_sems_quiet env DMA_BUF_SYNC_READ i
      (getImage s id) s
    rw [hci] at hquiet
    obtain ⟨⟨_, himgs, _, _, _⟩, _, _, _, _, _⟩ := hquiet
    cases r1 with
    | err e => cases h
    | aborted => cases h
    | ok j1 =>
      obtain ⟨htr1, sems1, hinfo1, hws1, hlen1⟩ :=
        cws_image_sems_ok env DMA_BUF_SYNC_READ i (getImage s id) s j1 s1 hci
      obtain ⟨ihtr, sems0, ihinfo, ihws, ihlen⟩ := ih j1 s1 j s' h
      have hgi : ∀ q, getImage s1 q = getImage s q :=
        getImage_eq_of_images himgs
      refine ⟨?_, sems1 ++ sems0, ?_, ?_, ?_⟩
      · rw [ihtr, htr1]
        have : cwsTexTraceSpec s1 rest = cwsTexTraceSpec s rest := by
          simp [cwsTexTraceSpec]
          congr 1
          exact List.map_congr_left fun q _ => by rw [hgi q]
        rw [this]
        simp [cwsTexTraceSpec, List.append_assoc]
      · rw [ihinfo, hinfo1]
        simp [List.append_assoc]
      · rw [ihws, hws1]
        simp [List.append_assoc]
      · have hsum : (List.map (fun q => planeCount (getImage s1 q)) rest).sum =
            (List.map (fun q => planeCount (getImage s q)) rest).sum := by
          congr 1
          exact List.map_congr_left fun q _ => by rw [hgi q]
        simp only [totalPlanesTex] at ihlen ⊢
        simp only [List.length_append, List.map_cons, List.sum_cons]
        omega

theorem create_wait_semaphores_ok (env : Env) (s : Renderer) (fbId : Nat)
    (s' : Renderer)
    (h : create_wait_semaphores env s fbId = (.ok (), s')) :
    s'.trace = s.trace ++ cwsTexTraceSpec s s.memory.textures ++
      exportEventsFor (getImage s fbId) DMA_BUF_SYNC_WRITE ∧
    (∀ info ∈ s'.memory.wait_semaphore_infos,
      info.stage_top_of_pipe = true) ∧
    s'.memory.wait_semaphores.length = s.memory.wait_semaphores.length +
      (totalPlanesTex s s.memory.textures +
        planeCount (getImage s fbId)) := by
  unfold create_wait_semaphores at h
  have h1 : (match cws_textures_go env 0
      { s with memory := { s.memory with wait_semaphore_infos := [] } }
      s.memory.textures with
    | (RRes.err e, s1) => ((RRes.err e : RRes Unit), s1)
    | (RRes.aborted, s1) => ((RRes.aborted : RRes Unit), s1)
    | (RRes.ok j, s1) =>
      match cws_image_sems env DMA_BUF_SYNC_WRITE j (getImage s1 fbId) s1 with
      | (RRes.err e, s2) => ((RRes.err e : RRes Unit), s2)
      | (RRes.aborted, s2) => ((RRes.aborted : RRes Unit), s2)
      | (RRes.ok _, s2) => ((RRes.ok () : RRes Unit), s2)) =
      (RRes.ok (), s') := h
  cases hgo : cws_textures_go env 0
      { s with memory := { s.memory with wait_semaphore_infos := [] } }
      s.memory.textures with
  | mk r1 s1 =>
  rw [hgo] at h1
  have hquiet := cws_textures_go_quiet env s.memory.textures
    0 { s with memory := { s.memory with wait_semaphore_infos := [] } }
  rw [show cws_textures_go env 0
      { s with memory := { s.memory with wait_semaphore_infos := [] } }
      ({ s with memory := { s.memory with wait_semaphore_infos := [] } } :
        Renderer).memory.textures = (r1, s1) from hgo] at hquiet
  obtain ⟨⟨_, himgs1, _, _, _⟩, _, _, _, _, _⟩ := hquiet
  cases r1 with
  | err e => cases h1
  | aborted => cases h1
  | ok j =>
    have h2 : (match cws_image_sems env DMA_BUF_SYNC_WRITE j
        (getImage s1 fbId) s1 with
      | (RRes.err e, s2) => ((RRes.err e : RRes Unit), s2)
      | (RRes.aborted, s2) => ((RRes.aborted : RRes Unit), s2)
      | (RRes.ok _, s2) => ((RRes.ok () : RRes Unit), s2)) =
        (RRes.ok (), s') := h1
    cases hci : cws_image_sems env DMA_BUF_SYNC_WRITE j (getImage s1 fbId) s1 with
    | mk r2 s2 =>
    rw [hci] at h2
    cases r2 with
    | err e => cases h2
    | aborted => cases h2
    | ok k =>
      cases h2
      obtain ⟨htr1, sems1, hinfo1, hws1, hlen1⟩ :=
        cws_textures_go_ok env _ 0 _ j s1 hgo
      obtain ⟨htr2, sems2, hinfo2, hws2, hlen2⟩ :=
        cws_image_sems_ok env DMA_BUF_SYNC_WRITE j (getImage s1 fbId) s1 k
          s' hci
      have himgs1' : s1.images = s.images := by simpa using himgs1
      have hgi1 : getImage s1 fbId = getImage s fbId :=
        getImage_eq_of_images himgs1' fbId
      have hspec : cwsTexTraceSpec
          { s with memory := { s.memory with wait_semaphore_infos := [] } }
          s.memory.textures = cwsTexTraceSpec s s.memory.textures := rfl
      refine ⟨?_, ?_, ?_⟩
      · rw [htr2, htr1]
        simp only [] at hspec ⊢
        rw [hspec, hgi1]
      · intro info hinfo
        rw [hinfo2, hinfo1] at hinfo
        simp only [List.append_assoc, List.mem_append, List.mem_map] at hinfo
        rcases hinfo with hinfo | ⟨x, _, hx⟩ | ⟨x, _, hx⟩
        · simp at hinfo
        · rw [show info = ({ semaphore := x, stage_top_of_pipe := true } :
            SemInfo) from hx.symm]
        · rw [show info = ({ semaphore := x, stage_top_of_pipe := true } :
            SemInfo) from hx.symm]
      · rw [hws2, hws1]
        have htp : totalPlanesTex
            { s with memory := { s.memory with wait_semaphore_infos := [] } }
            s.memory.textures = totalPlanesTex s s.memory.textures := rfl
        simp only [] at htp
        simp [List.length_append, hlen1, hlen2, htp, hgi1]

theorem allocate_semaphore_err {env : Env} {i : Nat} {s : Renderer}
    {e : VulkanError} {s1 : Renderer}
    (h : allocate_semaphore env i s = (.err e, s1)) : e = .CreateSemaphore := by
  revert h
  cases hws : s.wait_semaphores with
  | nil =>
    simp only [allocate_semaphore, hws]
    split
    · intro h; cases h
    · intro h; cases h; rfl
  | cons x rest =>
    intro h
    simp [allocate_semaphore, hws] at h

theorem cws_plane_sems_err_export (env : Env) (flag : Nat)
    (planes : List DmaBufPlane) : ∀ (i : Nat) (s s' : Renderer),
    cws_plane_sems env flag i s planes = (.err .IoctlExportSyncFile, s') →
    ∃ pre fd, s'.trace = s.trace ++ pre ++ [.exportSyncFile fd flag false] := by
  induction planes with
  | nil =>
    intro i s s' h
    simp only [cws_plane_sems] at h
    cases h
  | cons p rest ih =>
    intro i s s' h
    simp only [cws_plane_sems] at h
    by_cases hexp : env.exportSyncOk i
    case neg =>
      rw [if_neg hexp] at h
      cases h
      have hfalse : env.exportSyncOk i = false := by
        simpa using hexp
      exact ⟨[], p.fd, by simp [hfalse]⟩
    case pos =>
      rw [hexp, if_pos rfl] at h
      cases hca : allocate_semaphore env i
          { s with trace := s.trace ++ [.exportSyncFile p.fd flag true] } with
      | mk r1 s1 =>
      rw [hca] at h
      have hstate := allocate_semaphore_state env i
        { s with trace := s.trace ++ [.exportSyncFile p.fd flag true] }
      rw [hca] at hstate
      have htr1 : s1.trace =
          s.trace ++ [Event.exportSyncFile p.fd flag true] := hstate.1
      cases r1 with
      | err e =>
        have he : e = VulkanError.CreateSemaphore := allocate_semaphore_err hca
        subst he
        cases h
      | aborted => cases h
      | ok sem =>
        simp only [] at h
        by_cases himp : env.importSemOk i
        case neg =>
          rw [if_neg himp] at h
          cases h
        case pos =>
          rw [if_pos himp] at h
          obtain ⟨pre, fd, hpre⟩ := ih (i + 1) _ s' h
          simp only [] at hpre
          refine ⟨Event.exportSyncFile p.fd flag true :: pre, fd, ?_⟩
          rw [hpre, htr1]
          simp

theorem cws_image_sems_err_export (env : Env) (flag i : Nat)
    (img : VulkanImage) (s s' : Renderer)
    (h : cws_image_sems env flag i img s = (.err .IoctlExportSyncFile, s')) :
    ∃ pre fd, s'.trace = s.trace ++ pre ++ [.exportSyncFile fd flag false] := by
  cases hty : img.ty with
  | dmaBuf buf =>
    rw [cws_image_sems, hty] at h
    exact cws_plane_sems_err_export env flag buf.planes i s s' h
  | internal shm =>
    rw [cws_image_sems, hty] at h
    cases h

theorem cws_textures_go_err_export (env : Env) (T : List Nat) :
    ∀ (i : Nat) (s s' : Renderer),
    cws_textures_go env i s T = (.err .IoctlExportSyncFile, s') →
    ∃ pre fd, s'.trace =
      s.trace ++ pre ++ [.exportSyncFile fd DMA_BUF_SYNC_READ false] := by
  induction T with
  | nil =>
    intro i s s' h
    simp only [cws_textures_go] at h
    cases h
  | cons id rest ih =>
    intro i s s' h
    simp only [cws_textures_go] at h
    cases hci : cws_image_sems env DMA_BUF_SYNC_READ i (getImage s id) s with
    | mk r1 s1 =>
    rw [hci] at h
    cases r1 with
    | err e =>
      cases h
      exact cws_image_sems_err_export env DMA_BUF_SYNC_READ i
        (getImage s id) s s' hci
    | aborted => cases h
    | ok j1 =>
      obtain ⟨htr1, _, _, _, _⟩ :=
        cws_image_sems_ok env DMA_BUF_SYNC_READ i (getImage s id) s j1 s1 hci
      obtain ⟨pre, fd, hpre⟩ := ih j1 s1 s' h
      refine ⟨exportEventsFor (getImage s id) DMA_BUF_SYNC_READ ++ pre, fd, ?_⟩
      rw [hpre, htr1]
      simp

theorem create_wait_semaphores_err_export (env : Env) (s : Renderer)
    (fbId : Nat) (s' : Renderer)
    (h : create_wait_semaphores env s fbId =
      (.err .IoctlExportSyncFile, s')) :
    ∃ pre fd flag, s'.trace =
      s.trace ++ pre ++ [.exportSyncFile fd flag false] := by
  unfold create_wait_semaphores at h
  have h1 : (match cws_textures_go env 0
      { s with memory := { s.memory with wait_semaphore_infos := [] } }
      s.memory.textures with
    | (RRes.err e, s1) => ((RRes.err e : RRes Unit), s1)
    | (RRes.aborted, s1) => ((RRes.aborted : RRes Unit), s1)
    | (RRes.ok j, s1) =>
      match cws_image_sems env DMA_BUF_SYNC_WRITE j (getImage s1 fbId) s1 with
      | (RRes.err e, s2) => ((RRes.err e : RRes Unit), s2)
      | (RRes.aborted, s2) => ((RRes.aborted : RRes Unit), s2)
      | (RRes.ok _, s2) => ((RRes.ok () : RRes Unit), s2)) =
      (RRes.err .IoctlExportSyncFile, s') := h
  cases hgo : cws_textures_go env 0
      { s with memory := { s.memory with wait_semaphore_infos := [] } }
      s.memory.textures with
  | mk r1 s1 =>
  rw [hgo] at h1
  cases r1 with
  | err e =>
    cases h1
    obtain ⟨pre, fd, hpre⟩ := cws_textures_go_err_export env
      s.memory.textures 0 _ s' hgo
    exact ⟨pre, fd, DMA_BUF_SYNC_READ, by simpa using hpre⟩
  | aborted => cases h1
  | ok j =>
    have h2 : (match cws_image_sems env DMA_BUF_SYNC_WRITE j
        (getImage s1 fbId) s1 with
      | (RRes.err e, s2) => ((RRes.err e : RRes Unit), s2)
      | (RRes.aborted, s2) => ((RRes.aborted : RRes Unit), s2)
      | (RRes.ok _, s2) => ((RRes.ok () : RRes Unit), s2)) =
        (RRes.err .IoctlExportSyncFile, s') := h1
    cases hci : cws_image_sems env DMA_BUF_SYNC_WRITE j (getImage s1 fbId) s1 with
    | mk r2 s2 =>
    rw [hci] at h2
    cases r2 with
    | err e =>
      cases h2
      obtain ⟨htr1, _, _, _, _⟩ :=
        cws_textures_go_ok env s.memory.textures 0 _ j s1 hgo
      obtain ⟨pre, fd, hpre⟩ := cws_image_sems_err_export env
        DMA_BUF_SYNC_WRITE j (getImage s1 fbId) s1 s' hci
      refine ⟨cwsTexTraceSpec s s.memory.textures ++ pre, fd,
        DMA_BUF_SYNC_WRITE, ?_⟩
      rw [hpre, htr1]
      have hspec : cwsTexTraceSpec
          { s with memory := { s.memory with wait_semaphore_infos := [] } }
          s.memory.textures = cwsTexTraceSpec s s.memory.textures := rfl
      simp only [] at hspec
      rw [hspec]
      simp
    | aborted => cases h2
    | ok k => cases h2

theorem import_release_semaphore_eq (env : Env) (s : Renderer) (fbId : Nat) :
    import_release_semaphore env s fbId =
      { s with trace := s.trace ++ irsDelta env s fbId } := by
  unfold import_release_semaphore irsDelta
  cases s.memory.release_syncfile <;> simp

/-- C4: the wait-semaphore stage exports one sync-file per dma-buf plane —
flag `DMA_BUF_SYNC_READ` for each op texture and `DMA_BUF_SYNC_WRITE` for
the framebuffer — each imported into a semaphore waited at `TOP_OF_PIPE`,
with one semaphore per plane; an export failure fails the frame with
`IoctlExportSyncFile`, the failed ioctl being the last one attempted.
After submission the release sync-file is imported into every texture plane
with `DMA_BUF_SYNC_WRITE` and every framebuffer plane with
`DMA_BUF_SYNC_READ | DMA_BUF_SYNC_WRITE`, and this stage only appends to
the trace — an import failure cannot fail the frame, as the concrete run
with a failing import ioctl shows. -/
theorem execute_sync_file_semaphores :
    DMA_BUF_SYNC_READ = 1 ∧ DMA_BUF_SYNC_WRITE = 2 ∧
    (DMA_BUF_SYNC_READ ||| DMA_BUF_SYNC_WRITE) = 3 ∧
    (∀ (env : Env) (s : Renderer) (fbId : Nat) (s' : Renderer),
      create_wait_semaphores env s fbId = (.ok (), s') →
      s'.trace = s.trace ++ cwsTexTraceSpec s s.memory.textures ++
        exportEventsFor (getImage s fbId) DMA_BUF_SYNC_WRITE ∧
      (∀ info ∈ s'.memory.wait_semaphore_infos,
        info.stage_top_of_pipe = true) ∧
      s'.memory.wait_semaphores.length = s.memory.wait_semaphores.length +
        (totalPlanesTex s s.memory.textures +
          planeCount (getImage s fbId))) ∧
    (∀ (env : Env) (s : Renderer) (fbId : Nat) (s' : Renderer),
      create_wait_semaphores env s fbId =
        (.err .IoctlExportSyncFile, s') →
      ∃ pre fd flag, s'.trace =
        s.trace ++ pre ++ [.exportSyncFile fd flag false]) ∧
    (∀ (env : Env) (s : Renderer) (fbId : Nat),
      import_release_semaphore env s fbId =
        { s with trace := s.trace ++ irsDelta env s fbId }) ∧
    ((execute badImportEnv testS 2 testOps none).1 = .ok () ∧
      Event.importSyncFile 30 DMA_BUF_SYNC_WRITE false ∈
        (execute badImportEnv testS 2 testOps none).2.trace) := by
  refine ⟨rfl, rfl, rfl, ?_, ?_, ?_, ?_, ?_⟩
  · intro env s fbId s' h
    exact create_wait_semaphores_ok env s fbId s' h
  · intro env s fbId s' h
    exact create_wait_semaphores_err_export env s fbId s' h
  · intro env s fbId
    exact import_release_semaphore_eq env s fbId
  · decide
  · decide

/-- C4 witness: the characterizations applied to a concrete successful run
of the wait-semaphore stage on a state referencing a two-plane dma-buf. -/
theorem execute_sync_file_semaphores_witness :
    create_wait_semaphores okEnv
      { testS with memory := { emptyMemory with textures := [1] } } 2 =
      (.ok (), (create_wait_semaphores okEnv
        { testS with memory := { emptyMemory with textures := [1] } } 2).2) ∧
    (create_wait_semaphores okEnv
      { testS with memory := { emptyMemory with textures := [1] } }
      2).2.memory.wait_semaphores.length = 2 := by
  have happ := execute_sync_file_semaphores.2.2.2.1 okEnv
    { testS with memory := { emptyMemory with textures := [1] } } 2
    (create_wait_semaphores okEnv
      { testS with memory := { emptyMemory with textures := [1] } } 2).2
    (by decide)
  exact ⟨by decide, by
    rw [happ.2.2]
    decide⟩

/-! ### Format advertisement -/

theorem lookup_map_snd {β γ : Type} (l : List (Nat × β)) (f : β → γ)
    (k : Nat) :
    (l.map fun p => (p.1, f p.2)).lookup k = (l.lookup k).map f := by
  induction l with
  | nil => rfl
  | cons hd tl ih =>
    rcases hd with ⟨a, b⟩
    by_cases h : k = a
    · subst h
      simp [List.lookup]
    · have hne : (k == a) = false := by simp [h]
      simp only [List.map_cons, List.lookup, hne]
      exact ih

/-- C8: for every device format table, `formats()` advertises a modifier for
reading iff it has a texture extent bound and for writing iff it has a
render extent bound; under the device-construction invariant (spec-modelled:
device creation fails with `VulkanError.XRGB8888` otherwise) the XRGB8888
entry has at least one modifier in both sets. -/
theorem formats_advertisement (dev : List (Nat × VulkanFormatEntry)) :
    (∀ (drm : Nat) (e : VulkanFormatEntry), dev.lookup drm = some e →
      ∃ gf, (create_renderer_formats dev).lookup drm = some gf ∧
        gf.format = e.format ∧
        (∀ m, m ∈ gf.read_modifiers ↔
          ∃ vm ∈ e.modifiers, vm.modifier = m ∧
            vm.texture_max_extents.isSome) ∧
        (∀ m, m ∈ gf.write_modifiers ↔
          ∃ vm ∈ e.modifiers, vm.modifier = m ∧
            vm.render_max_extents.isSome)) ∧
    (device_formats_ok dev →
      ∃ gf, (create_renderer_formats dev).lookup XRGB8888 = some gf ∧
        gf.read_modifiers ≠ [] ∧ gf.write_modifiers ≠ []) := by
  have hmain : ∀ (drm : Nat) (e : VulkanFormatEntry), dev.lookup drm = some e →
      ∃ gf, (create_renderer_formats dev).lookup drm = some gf ∧
        gf.format = e.format ∧
        (∀ m, m ∈ gf.read_modifiers ↔
          ∃ vm ∈ e.modifiers, vm.modifier = m ∧
            vm.texture_max_extents.isSome) ∧
        (∀ m, m ∈ gf.write_modifiers ↔
          ∃ vm ∈ e.modifiers, vm.modifier = m ∧
            vm.render_max_extents.isSome) := by
    intro drm e he
    refine ⟨gfxFormatOf e, ?_, rfl, ?_, ?_⟩
    · unfold create_renderer_formats
      rw [lookup_map_snd dev gfxFormatOf drm, he]
      rfl
    · intro m
      simp only [gfxFormatOf, List.mem_map, List.mem_filter]
      constructor
      · rintro ⟨vm, ⟨hvm, hsome⟩, hmod⟩
        exact ⟨vm, hvm, hmod, by simpa using hsome⟩
      · rintro ⟨vm, hvm, hmod, hsome⟩
        exact ⟨vm, ⟨hvm, by simpa using hsome⟩, hmod⟩
    · intro m
      simp only [gfxFormatOf, List.mem_map, List.mem_filter]
      constructor
      · rintro ⟨vm, ⟨hvm, hsome⟩, hmod⟩
        exact ⟨vm, hvm, hmod, by simpa using hsome⟩
      · rintro ⟨vm, hvm, hmod, hsome⟩
        exact ⟨vm, ⟨hvm, by simpa using hsome⟩, hmod⟩
  refine ⟨hmain, ?_⟩
  rintro ⟨e, he, ⟨vmt, hvmt, htex⟩, ⟨vmr, hvmr, hrender⟩⟩
  obtain ⟨gf, hgf, _, hread, hwrite⟩ := hmain XRGB8888 e he
  refine ⟨gf, hgf, ?_, ?_⟩
  · intro hempty
    have hmem : vmt.modifier ∈ gf.read_modifiers :=
      (hread vmt.modifier).mpr ⟨vmt, hvmt, rfl, htex⟩
    rw [hempty] at hmem
    cases hmem
  · intro hempty
    have hmem : vmr.modifier ∈ gf.write_modifiers :=
      (hwrite vmr.modifier).mpr ⟨vmr, hvmr, rfl, hrender⟩
    rw [hempty] at hmem
    cases hmem

/-- C8 witness: the advertisement characterization applied to the concrete
table. -/
theorem formats_advertisement_witness :
    device_formats_ok testDev ∧
    (∃ gf, (create_renderer_formats testDev).lookup XRGB8888 = some gf ∧
      gf.read_modifiers ≠ [] ∧ gf.write_modifiers ≠ []) := by
  have hok : device_formats_ok testDev :=
    ⟨testEntry, by decide, ⟨testVm, by decide, by decide⟩,
      ⟨testVm2, by decide, by decide⟩⟩
  exact ⟨hok, (formats_advertisement testDev).2 hok⟩

/-! ### Foreign images abort -/

theorem into_vk_bad {s : Renderer} {t : GfxTexture}
    (h : badTexture s t = true) : into_vk s t = .aborted := by
  cases t with
  | foreign => rfl
  | vulkan id =>
    cases hlk : lookupImage s id with
    | none => simp [into_vk, hlk]
    | some img =>
      have hne : img.deviceH ≠ s.deviceH := by
        simpa [badTexture, hlk] using h
      simp [into_vk, hlk, hne]

theorem into_vk_no_err (s : Renderer) (t : GfxTexture) :
    into_vk s t = .aborted ∨ ∃ v, into_vk s t = .ok v := by
  cases t with
  | foreign => exact Or.inl rfl
  | vulkan id =>
    cases hlk : lookupImage s id with
    | none => exact Or.inl (by simp [into_vk, hlk])
    | some img =>
      by_cases hdev : img.deviceH = s.deviceH
      · exact Or.inr ⟨(id, img), by simp [into_vk, hlk, hdev]⟩
      · exact Or.inl (by simp [into_vk, hlk, hdev])

theorem badTexture_congr {s s' : Renderer} (hi : s'.images = s.images)
    (hd : s'.deviceH = s.deviceH) (t : GfxTexture) :
    badTexture s' t = badTexture s t := by
  cases t <;> simp [badTexture, lookupImage, hi, hd]

theorem collect_go_bad (opts : List GfxApiOpt) : ∀ s : Renderer,
    (∃ op ∈ opts, ∃ t, op = GfxApiOpt.copyTexture t ∧ badTexture s t = true) →
    (collect_go s opts).1 = .aborted := by
  induction opts with
  | nil =>
    rintro s ⟨op, hmem, _⟩
    cases hmem
  | cons op rest ih =>
    rintro s ⟨op0, hmem, t0, hop0, hbad⟩
    rcases List.mem_cons.mp hmem with heq | hmemr
    · subst heq
      subst hop0
      simp [collect_go, into_vk_bad hbad]
    · cases op with
      | sync =>
        simp only [collect_go]
        exact ih s ⟨op0, hmemr, t0, hop0, hbad⟩
      | fillRect =>
        simp only [collect_go]
        exact ih s ⟨op0, hmemr, t0, hop0, hbad⟩
      | copyTexture t =>
        simp only [collect_go]
        cases hiv : into_vk s t with
        | aborted => rfl
        | err e =>
          rcases into_vk_no_err s t with hc | ⟨v, hc⟩ <;> rw [hc] at hiv <;>
            cases hiv
        | ok v =>
          rcases v with ⟨id, img⟩
          show (collect_go
            { s with memory := collectClassify s.memory id img } rest).1 =
            RRes.aborted
          refine ih _ ⟨op0, hmemr, t0, hop0, ?_⟩
          rw [badTexture_congr rfl rfl]
          exact hbad

/-- C9: a non-Vulkan texture or framebuffer, or a Vulkan image of another
device, panics in the downcast into the Vulkan core (`into_vk` / `as_vk` /
the framebuffer cast): there is no error-returning path, and an `execute`
whose ops reference such an object panics rather than returning an error
(provided the command-buffer allocation that precedes texture collection
does not itself fail). -/
theorem foreign_texture_aborts :
    (∀ s : Renderer, into_vk s .foreign = .aborted ∧
      as_vk s .foreign = .aborted ∧ gfx_fb_into_vk s .foreign = .aborted) ∧
    (∀ (s : Renderer) (t : GfxTexture), badTexture s t = true →
      into_vk s t = .aborted) ∧
    (∀ (s : Renderer) (t : GfxTexture),
      into_vk s t = .aborted ∨ ∃ v, into_vk s t = .ok v) ∧
    (∀ (env : Env) (s : Renderer) (fbId : Nat) (opts : List GfxApiOpt)
      (clear : Option Color),
      (s.command_buffers ≠ [] ∨ env.allocBufOk = true) →
      (∃ op ∈ opts, ∃ t, op = GfxApiOpt.copyTexture t ∧
        badTexture s t = true) →
      (execute env s fbId opts clear).1 = .aborted) := by
  refine ⟨fun s => ⟨rfl, rfl, rfl⟩, fun s t => into_vk_bad, into_vk_no_err,
    ?_⟩
  intro env s fbId opts clear halloc hbad
  obtain ⟨er, _, _, _, _⟩ := execute_proj env s fbId opts clear
  rw [er]
  unfold try_execute
  cases h1 : allocate_command_buffer env s with
  | mk r1 s1 =>
  have q1 := alloc_cb_quiet env s
  rw [h1] at q1
  obtain ⟨⟨hd1, hi1, _, _, _⟩, _⟩ := q1
  have hok : ∃ b, r1 = .ok b := by
    cases hcb : s.command_buffers with
    | cons b rest =>
      simp only [allocate_command_buffer, hcb] at h1
      cases h1
      exact ⟨b, rfl⟩
    | nil =>
      have hA : env.allocBufOk = true := by
        rcases halloc with hne | hA
        · exact absurd hcb hne
        · exact hA
      simp only [allocate_command_buffer, hcb, hA, if_pos] at h1
      cases h1
      exact ⟨_, rfl⟩
  obtain ⟨b, rb⟩ := hok
  subst rb
  simp only [rbind]
  cases h2 : collect_memory s1 opts with
  | mk r2 s2 =>
  have hbad1 : ∃ op ∈ opts, ∃ t, op = GfxApiOpt.copyTexture t ∧
      badTexture s1 t = true := by
    obtain ⟨op, hmem, t, hop, hb⟩ := hbad
    refine ⟨op, hmem, t, hop, ?_⟩
    rw [badTexture_congr (by simpa using hi1) (by simpa using hd1)]
    exact hb
  have hab : r2 = .aborted := by
    have := collect_go_bad opts
      { s1 with memory := { s1.memory with sample := [], flush := [] } }
      (by
        obtain ⟨op, hmem, t, hop, hb⟩ := hbad1
        exact ⟨op, hmem, t, hop, by
          rw [badTexture_congr rfl rfl]
          exact hb⟩)
    have hcm : (collect_memory s1 opts).1 = .aborted := this
    rw [h2] at hcm
    exact hcm
  subst hab
  rfl

/-- C9 witness: an `execute` whose op list references a foreign texture
panics on the fixture state. -/
theorem foreign_texture_aborts_witness :
    (testS.command_buffers ≠ [] ∨ okEnv.allocBufOk = true) ∧
    (∃ op ∈ ([.copyTexture .foreign] : List GfxApiOpt), ∃ t,
      op = GfxApiOpt.copyTexture t ∧ badTexture testS t = true) ∧
    (execute okEnv testS 2 [.copyTexture .foreign] none).1 = .aborted :=
  ⟨Or.inr rfl,
   ⟨.copyTexture .foreign, by decide, .foreign, rfl, by decide⟩,
   foreign_texture_aborts.2.2.2 okEnv testS 2 [.copyTexture .foreign] none
     (Or.inr rfl)
     ⟨.copyTexture .foreign, by decide, .foreign, rfl, by decide⟩⟩

/-! ### Per-op collection (C10) -/

theorem create_staging_buffer_state (env : Env) (i size : Nat)
    (u d c : Bool) (s : Renderer) :
    (create_staging_buffer env i size u d c s).2.memory = s.memory ∧
    (create_staging_buffer env i size u d c s).2.images = s.images := by
  unfold create_staging_buffer
  split <;> simp

theorem write_staging_go_pairs (env : Env) (l : List Nat) :
    ∀ (i : Nat) (s s' : Renderer),
    write_staging_go env i s l = (.ok (), s') →
    s'.memory.flush_staging.map Prod.fst =
      s.memory.flush_staging.map Prod.fst ++ l := by
  induction l with
  | nil =>
    intro i s s' h
    simp only [write_staging_go] at h
    cases h
    simp
  | cons id rest ih =>
    intro i s s' h
    simp only [write_staging_go] at h
    cases hlk : lookupImage s id with
    | none => rw [hlk] at h; cases h
    | some img =>
      simp only [hlk] at h
      cases hty : img.ty with
      | dmaBuf buf =>
        simp only [hty] at h
        cases h
      | internal shm =>
        simp only [hty] at h
        cases hcs : create_staging_buffer env i shm.size true false true s with
        | mk r1 s1 =>
        rw [hcs] at h
        have hmem1 : s1.memory = s.memory := by
          have := (create_staging_buffer_state env i shm.size true false
            true s).1
          rw [hcs] at this
          exact this
        cases r1 with
        | err e => cases h
        | aborted => cases h
        | ok staging =>
          cases htf : shm.to_flush with
          | none =>
            simp only [htf] at h
            cases h
          | some bytes =>
            simp only [htf] at h
            by_cases hup : env.stagingUploadOk i
            case neg =>
              rw [if_neg (by simpa using hup)] at h
              cases h
            case pos =>
              rw [if_pos (by simpa using hup)] at h
              have := ih (i + 1) _ s' h
              simp only [] at this
              rw [this, hmem1]
              simp

theorem write_shm_staging_buffers_pairs (env : Env) (s s' : Renderer)
    (h : write_shm_staging_buffers env s = (.ok (), s')) :
    s'.memory.flush_staging.map Prod.fst = s.memory.flush := by
  unfold write_shm_staging_buffers at h
  have h' : write_staging_go env 0
      { s with memory := { s.memory with flush_staging := [] } }
      s.memory.flush = (.ok (), s') := h
  have := write_staging_go_pairs env s.memory.flush 0 _ s' h'
  simpa using this

/-- C10: textures are collected per `CopyTexture` op, in op order with
duplicates included, while `FillRect` and `Sync` contribute nothing; an shm
texture with a pending upload referenced by n ops gets n staging buffers
and n buffer-to-image copies, and a dma-buf texture referenced by n ops
gets n sync-file exports and wait semaphores per plane (plus the
framebuffer's own planes). -/
theorem collect_per_op :
    (∀ (s s' : Renderer) (opts : List GfxApiOpt),
      s.memory.textures = [] →
      collect_memory s opts = (.ok (), s') →
      s'.memory.textures = opTexIds opts ∧
      s'.memory.flush = (opTexIds opts).filter (fun id => pendingShmAt s id) ∧
      s'.memory.sample = (opTexIds opts).filter (fun id => isDmaAt s id)) ∧
    (∀ (env : Env) (s s' : Renderer),
      write_shm_staging_buffers env s = (.ok (), s') →
      s'.memory.flush_staging.map Prod.fst = s.memory.flush) ∧
    (∀ s : Renderer, (copy_shm_to_image s).trace =
      s.trace ++ s.memory.flush_staging.map (fun p =>
        Event.copyBufferToImage p.1
          ((getImage s p.1).stride / (getImage s p.1).format.bpp))) ∧
    (∀ (env : Env) (s : Renderer) (fbId : Nat) (s' : Renderer),
      create_wait_semaphores env s fbId = (.ok (), s') →
      s'.memory.wait_semaphores.length = s.memory.wait_semaphores.length +
        (totalPlanesTex s s.memory.textures +
          planeCount (getImage s fbId))) := by
  refine ⟨?_, write_shm_staging_buffers_pairs, fun s => rfl, ?_⟩
  · intro s s' opts hT h
    obtain ⟨_, _, _, _, hflush, htex⟩ := collect_memory_ok h
    refine ⟨by rw [htex, hT]; simp, hflush, ?_⟩
    unfold collect_memory at h
    obtain ⟨_, hsample, _⟩ := collect_go_ok opts _ _ h
    rw [hsample]
    rfl
  · intro env s fbId s' h
    exact (create_wait_semaphores_ok env s fbId s' h).2.2

/-- C10 witness: the duplicated dma-buf reference appears twice in the
collected texture list and contributes two exports per plane. -/
theorem collect_per_op_witness :
    testS.memory.textures = [] ∧
    (collect_memory testS testOpsDup).2.memory.textures = [1, 1] := by
  have happ := collect_per_op.1 testS (collect_memory testS testOpsDup).2
    testOpsDup (by decide) (by decide)
  refine ⟨by decide, ?_⟩
  rw [happ.1]
  decide

/-! ### shmem_texture (C7) -/

/-- C3 witness: running the watcher of the concrete pending frame removes
its key and recycles its buffer and semaphores. -/
theorem await_release_char_witness :
    (3 : Nat) ≠ testFrame.point ∧ testFrame.cmd = some 42 ∧
    (9 : Nat) ∈ testFrame.wait_semaphores ∧
    ((await_release true testFrame testS2).pending_frames.lookup 5 = none ∧
     (await_release true testFrame testS2).pending_frames.lookup 3 =
       testS2.pending_frames.lookup 3 ∧
     42 ∈ (await_release true testFrame testS2).command_buffers ∧
     9 ∈ (await_release true testFrame testS2).wait_semaphores) :=
  ⟨by decide, by decide, by decide,
    (await_release_char true testFrame testS2).2.1,
    (await_release_char true testFrame testS2).2.2.1 3 (by decide),
    (await_release_char true testFrame testS2).2.2.2.2.1 42 rfl,
    (await_release_char true testFrame testS2).2.2.2.2.2 9 (by decide)⟩

/-! ### Error classification for the readback paths (C6) -/

theorem rbind_nsp {α β : Type} (x : RRes α × Renderer)
    (f : α → Renderer → RRes β × Renderer)
    (hx : isShmParamsErr x = false)
    (hf : ∀ a s, isShmParamsErr (f a s) = false) :
    isShmParamsErr (rbind x f) = false := by
  rcases x with ⟨r, s⟩
  cases r with
  | ok a => exact hf a s
  | err e => exact hx
  | aborted => rfl

theorem create_staging_buffer_nsp (env : Env) (i size : Nat)
    (a b c : Bool) (s : Renderer) :
    isShmParamsErr (create_staging_buffer env i size a b c s) = false := by
  simp only [create_staging_buffer]
  split <;> rfl

theorem alloc_cb_nsp (env : Env) (s : Renderer) :
    isShmParamsErr (allocate_command_buffer env s) = false := by
  cases h : s.command_buffers with
  | nil =>
    simp only [allocate_command_buffer, h]
    split <;> rfl
  | cons b rest =>
    simp only [allocate_command_buffer, h]
    rfl

theorem begin_cb_nsp (env : Env) (s : Renderer) :
    isShmParamsErr (begin_command_buffer env s) = false := by
  simp only [begin_command_buffer]
  split <;> rfl

theorem end_cb_nsp (env : Env) (s : Renderer) :
    isShmParamsErr (end_command_buffer env s) = false := by
  simp only [end_command_buffer]
  split <;> rfl

theorem rap_sems_go_nsp (env : Env) (planes : List DmaBufPlane) :
    ∀ (i : Nat) (s : Renderer) (acc : List Nat),
    isShmParamsErr (rap_sems_go env i s planes acc) = false := by
  induction planes with
  | nil => intro i s acc; rfl
  | cons p rest ih =>
    intro i s acc
    simp only [rap_sems_go]
    split
    · split
      next e s1 heq =>
        rw [allocate_semaphore_err heq]
        rfl
      next s1 heq => rfl
      next sem s1 heq =>
        split
        · exact ih _ _ _
        · rfl
    · rfl

theorem read_all_pixels_nsp (env : Env) (s : Renderer)
    (texId stride dstLen : Nat) :
    isShmParamsErr (read_all_pixels env s texId stride dstLen) = false := by
  simp only [read_all_pixels]
  split
  · rfl
  · split
    · rfl
    · refine rbind_nsp _ _ (create_staging_buffer_nsp _ _ _ _ _ _ _)
        fun _ s2 => ?_
      refine rbind_nsp _ _ (alloc_cb_nsp _ _) fun buf s3 => ?_
      refine rbind_nsp _ _ ?_ fun sems s4 => ?_
      · split
        · exact rap_sems_go_nsp _ _ _ _ _
        · rfl
      · refine rbind_nsp _ _ (begin_cb_nsp _ _) fun _ s5 => ?_
        refine rbind_nsp _ _ (end_cb_nsp _ _) fun _ s6 => ?_
        split
        · split <;> rfl
        · rfl

theorem create_shm_texture_nsp (env : Env) (s : Renderer) (format : Format)
    (width height stride : Nat) (data : List Nat) (fr : Bool) :
    isShmParamsErr
      (create_shm_texture env s format width height stride data fr) =
        false := by
  simp only [create_shm_texture]
  split
  · rfl
  · split
    · rfl
    · split <;> rfl

theorem create_shm_texture_ok {env : Env} {s : Renderer} {format : Format}
    {width height stride : Nat} {data : List Nat} {fr : Bool} {tmpId : Nat}
    {s1 : Renderer}
    (h : create_shm_texture env s format width height stride data fr =
      (.ok tmpId, s1)) :
    tmpId = s.fresh ∧ s1.pending_frames = s.pending_frames ∧
    s1.last_point = s.last_point := by
  simp only [create_shm_texture] at h
  split at h
  · exact absurd h (by simp)
  · split at h
    · exact absurd h (by simp)
    · split at h
      · rw [Prod.mk.injEq] at h
        obtain ⟨h1, h2⟩ := h
        injection h1 with h1
        subst h1
        subst h2
        exact ⟨rfl, rfl, rfl⟩
      · exact absurd h (by simp)

/-- C6: `read_pixels` reports `InvalidShmParameters` exactly when a
parameter is negative or non-positive, and the three validation errors of
the fast whole-texture path (`InvalidShmParameters`, `InvalidStride`,
`InvalidBufferSize`) leave the renderer completely unchanged; but the
spec's blanket claim that every validation failure is side-effect free is
wrong for the subrectangle slow path, where the stride and buffer-size
checks run only after the temporary texture has been created and the blit
frame has executed, so an `InvalidBufferSize` return can leave a new
pending frame behind and `last_point` advanced. -/
theorem read_pixels_validation :
    (∀ (env : Env) (s : Renderer) (texId : Nat) (x y width height stride : Int)
      (format : Format) (dstLen : Nat),
      (x < 0 ∨ y < 0 ∨ width ≤ 0 ∨ height ≤ 0 ∨ stride ≤ 0) →
      read_pixels env s texId x y width height stride format dstLen =
        (.err (.InvalidShmParameters x y width height stride), s)) ∧
    (∀ (env : Env) (s : Renderer) (texId : Nat) (x y width height stride : Int)
      (format : Format) (dstLen : Nat),
      ¬(x < 0 ∨ y < 0 ∨ width ≤ 0 ∨ height ≤ 0 ∨ stride ≤ 0) →
      isShmParamsErr
        (read_pixels env s texId x y width height stride format dstLen) =
          false) ∧
    (∀ (env : Env) (s : Renderer) (texId : Nat) (x y width height stride : Int)
      (format : Format) (dstLen : Nat),
      ¬(x < 0 ∨ y < 0 ∨ width ≤ 0 ∨ height ≤ 0 ∨ stride ≤ 0) →
      (x = 0 ∧ y = 0 ∧ width.toNat = (getImage s texId).width ∧
        height.toNat = (getImage s texId).height ∧
        format = (getImage s texId).format) →
      (stride.toNat < (getImage s texId).width * (getImage s texId).format.bpp ∨
        stride.toNat % (getImage s texId).format.bpp ≠ 0) →
      read_pixels env s texId x y width height stride format dstLen =
        (.err .InvalidStride, s)) ∧
    (∀ (env : Env) (s : Renderer) (texId : Nat) (x y width height stride : Int)
      (format : Format) (dstLen : Nat),
      ¬(x < 0 ∨ y < 0 ∨ width ≤ 0 ∨ height ≤ 0 ∨ stride ≤ 0) →
      (x = 0 ∧ y = 0 ∧ width.toNat = (getImage s texId).width ∧
        height.toNat = (getImage s texId).height ∧
        format = (getImage s texId).format) →
      ¬(stride.toNat < (getImage s texId).width * (getImage s texId).format.bpp ∨
        stride.toNat % (getImage s texId).format.bpp ≠ 0) →
      stride.toNat * (getImage s texId).height ≠ dstLen →
      read_pixels env s texId x y width height stride format dstLen =
        (.err .InvalidBufferSize, s)) ∧
    (∀ (env : Env) (s : Renderer) (texId : Nat) (x y width height stride : Int)
      (format : Format) (dstLen : Nat) (tmpId : Nat) (s1 : Renderer),
      ¬(x < 0 ∨ y < 0 ∨ width ≤ 0 ∨ height ≤ 0 ∨ stride ≤ 0) →
      ¬(x = 0 ∧ y = 0 ∧ width.toNat = (getImage s texId).width ∧
        height.toNat = (getImage s texId).height ∧
        format = (getImage s texId).format) →
      create_shm_texture env s format width.toNat height.toNat stride.toNat
        [] true = (.ok tmpId, s1) →
      (execute env s1 tmpId [.copyTexture (.vulkan texId)] none).1 = .ok () →
      ¬(stride.toNat <
          (getImage (copy_texture env s1 tmpId texId) tmpId).width *
            (getImage (copy_texture env s1 tmpId texId) tmpId).format.bpp ∨
        stride.toNat %
          (getImage (copy_texture env s1 tmpId texId) tmpId).format.bpp ≠ 0) →
      stride.toNat * (getImage (copy_texture env s1 tmpId texId) tmpId).height ≠
        dstLen →
      read_pixels env s texId x y width height stride format dstLen =
        (.err .InvalidBufferSize, copy_texture env s1 tmpId texId) ∧
      (copy_texture env s1 tmpId texId).pending_frames.length =
        s.pending_frames.length + 1 ∧
      (copy_texture env s1 tmpId texId).last_point = s.last_point + 1) := by
  refine ⟨?_, ?_, ?_, ?_, ?_⟩
  · intro env s texId x y width height stride format dstLen hbad
    simp only [read_pixels]
    rw [if_pos hbad]
  · intro env s texId x y width height stride format dstLen hbad
    simp only [read_pixels]
    rw [if_neg hbad]
    split
    · exact read_all_pixels_nsp _ _ _ _ _
    · split
      next e s1 heq =>
        have hn := create_shm_texture_nsp env s format width.toNat
          height.toNat stride.toNat [] true
        rw [heq] at hn
        exact hn
      next s1 heq => rfl
      next tmpId s1 heq => exact read_all_pixels_nsp _ _ _ _ _
  · intro env s texId x y width height stride format dstLen hbad hfast hstr
    simp only [read_pixels]
    rw [if_neg hbad, if_pos hfast]
    simp only [read_all_pixels]
    rw [if_pos hstr]
  · intro env s texId x y width height stride format dstLen hbad hfast hstr
      hsz
    simp only [read_pixels]
    rw [if_neg hbad, if_pos hfast]
    simp only [read_all_pixels]
    rw [if_neg hstr, if_pos hsz]
  · intro env s texId x y width height stride format dstLen tmpId s1 hbad
      hfast hc he hstr hsz
    obtain ⟨htmp, hp1, hl1⟩ := create_shm_texture_ok hc
    refine ⟨?_, ?_, ?_⟩
    · simp only [read_pixels]
      rw [if_neg hbad, if_neg hfast, hc]
      simp only [read_all_pixels]
      rw [if_neg hstr, if_pos hsz]
    · obtain ⟨er, ep, el, _, _⟩ :=
        execute_proj env s1 tmpId [.copyTexture (.vulkan texId)] none
      rcases try_execute_master env s1 tmpId [.copyTexture (.vulkan texId)]
          none with
        ⟨e, sx, hT, _, _, _⟩ | ⟨sx, hT, _, _⟩ |
        ⟨buf, sm, st, hT, _, _, hp, hl, _, hst⟩
      · rw [hT] at er
        simp only [] at er
        rw [er] at he
        cases he
      · rw [hT] at er
        simp only [] at er
        rw [er] at he
        cases he
      · rw [hT] at ep
        simp only [] at ep
        obtain ⟨_, _, _, _, _, pS, _, _, _⟩ := store_layouts_state sm tmpId
        rw [hst] at pS
        simp only [] at pS
        obtain ⟨_, cp, _, _⟩ := create_pending_frame_char st buf
        have hcp : (copy_texture env s1 tmpId texId).pending_frames =
            (execute env s1 tmpId [.copyTexture (.vulkan texId)]
              none).2.pending_frames := rfl
        rw [hcp, ep, cp, List.length_cons, pS, hp, hp1]
    · obtain ⟨er, ep, el, _, _⟩ :=
        execute_proj env s1 tmpId [.copyTexture (.vulkan texId)] none
      rcases try_execute_master env s1 tmpId [.copyTexture (.vulkan texId)]
          none with
        ⟨e, sx, hT, _, _, _⟩ | ⟨sx, hT, _, _⟩ |
        ⟨buf, sm, st, hT, _, _, hp, hl, _, hst⟩
      · rw [hT] at er
        simp only [] at er
        rw [er] at he
        cases he
      · rw [hT] at er
        simp only [] at er
        rw [er] at he
        cases he
      · rw [hT] at el
        simp only [] at el
        obtain ⟨_, _, _, _, _, _, lS, _, _⟩ := store_layouts_state sm tmpId
        rw [hst] at lS
        simp only [] at lS
        obtain ⟨cl, _, _, _⟩ := create_pending_frame_char st buf
        have hcl : (copy_texture env s1 tmpId texId).last_point =
            (execute env s1 tmpId [.copyTexture (.vulkan texId)]
              none).2.last_point := rfl
        rw [hcl, el, cl, lS, hl, hl1]

/-- C6 counterexample to the original claim: in the subrectangle slow path
the buffer-size validation failure is reported only after the temporary
blit frame has executed, so the `InvalidBufferSize` return leaves a new
pending frame behind and `last_point` advanced. -/
theorem read_pixels_side_effect :
    (read_pixels okEnv testS 0 1 0 1 1 4 fmtX 5).1 =
      .err .InvalidBufferSize ∧
    (read_pixels okEnv testS 0 1 0 1 1 4 fmtX 5).2.pending_frames.length =
      testS.pending_frames.length + 1 ∧
    (read_pixels okEnv testS 0 1 0 1 1 4 fmtX 5).2.last_point =
      testS.last_point + 1 := by
  refine ⟨?_, ?_, ?_⟩ <;> decide

/-- C6 witness: a whole-texture readback with a wrong destination size is
rejected with `InvalidBufferSize` and leaves the fixture state untouched. -/
theorem read_pixels_validation_witness :
    read_pixels okEnv testS 0 0 0 2 2 8 fmtX 5 =
      (.err .InvalidBufferSize, testS) :=
  read_pixels_validation.2.2.2.1 okEnv testS 0 0 0 2 2 8 fmtX 5
    (by decide) (by decide) (by decide) (by decide)

end Jay
